import Mathlib

/-!
Verification development for the MCP reverse-proxy repository.

The repository contains several near-duplicate variants of the same
Express-based reverse proxy:

* `src/unnamed/part_000` — the main proxy variant: secret gate, header
  translation into a plain JS object, fetch with an AbortController
  timeout, SSE-vs-buffer classification of the upstream response, and a
  manual brotli decompression step in the buffered path.
* `src/index.js` — a later rewrite of the same proxy that drops the
  classification (every body-bearing response takes the streaming
  pass-through branch) and that references the unbound variable
  `nodeStream` (the result of `Readable.fromWeb` on line 244 is never
  assigned), so its streaming branch throws a `ReferenceError` after the
  response headers have been flushed.
* `src/unnamed/part_001` — two older variants: an MCP-SDK server, and a
  simpler proxy whose header translation uses a `Headers` object and
  whose health endpoint answers `ok/mcp` rather than `ok/proxy`.

The definitions below are a shallow embedding of those handlers: JS
strings are Lean `String`s, buffers are `List Nat`, header maps are
association lists with the exact lookup/overwrite semantics of the JS
constructs used (plain objects, fetch `Headers`, Node `res.setHeader`).
-/

/-! ## Bytes and JS string truthiness -/

/-- Byte sequences (Node `Buffer` / `ArrayBuffer` contents). -/
abbrev ByteSeq := List Nat

/-- A value of Node's `req.headers` map: a single string, or (for
`set-cookie`) an array of strings. -/
inductive HVal where
  | str (s : String)
  | arr (l : List String)
deriving DecidableEq

/-- `Array.isArray(v) ? v.join(",") : v` from the header-translation loop. -/
def hvalJoin : HVal → String
  | .str s => s
  | .arr l => String.intercalate "," l

/-- JS truthiness test `!v` on a header value: the empty string is falsy,
arrays are always truthy. -/
def hvalFalsy : HVal → Bool
  | .str s => s = ""
  | .arr _ => false

/-- JS `a || b` on optional environment-variable strings (`undefined` is
`none`; a set-but-empty variable is `some ""` and is falsy). -/
def jsOr (a b : Option String) : Option String :=
  match a with
  | some s => if s = "" then b else some s
  | none => b

/-- JS falsiness of an optional string (`!x` where `x` is `undefined` or a
string). -/
def optFalsy : Option String → Bool
  | none => true
  | some s => s = ""

/-! ## Configuration (environment variables) -/

/-- The environment variables the proxy reads. -/
structure Env where
  MCP_PATH_SECRET : Option String
  MCP_SHARED_SECRET : Option String
  RENDER_API_KEY : Option String
  UPSTREAM_TIMEOUT_MS : Option Nat
deriving DecidableEq

/-- `const MCP_PATH_SECRET = process.env.MCP_PATH_SECRET ||
process.env.MCP_SHARED_SECRET` (src/unnamed/part_000 line 13,
src/index.js line 19). -/
def effectiveSecret (e : Env) : Option String :=
  jsOr e.MCP_PATH_SECRET e.MCP_SHARED_SECRET

/-- The same derivation as a function of the two variables, used to state
facts about specific combinations of them. -/
def effectiveSecretOf (primary fallback : Option String) : Option String :=
  jsOr primary fallback

/-! ## Secret gate -/

/-- `checkSecret` (src/unnamed/part_000 lines 49-57; identical logic in
src/index.js lines 77-85 and, without the fallback variable, in
src/unnamed/part_001 lines 124-132): authorize when the configured secret
is falsy (`undefined` or empty), otherwise require exact string equality
with the path token. Returns `true` for authorized. -/
def checkSecret (cfg : Option String) (provided : String) : Bool :=
  match cfg with
  | none => true
  | some s => if s = "" then true else provided = s

/-! ## JSON bodies -/

/-- A (flat) JSON value, enough for the bodies this server produces. -/
inductive JVal where
  | bool (b : Bool)
  | str (s : String)
deriving DecidableEq

/-- A flat JSON object as an ordered field list. -/
abbrev JObj := List (String × JVal)

/-- The 401 body sent by `checkSecret`. -/
def unauthorizedBody : JObj := [("error", .str "Unauthorized")]

/-! ## Health endpoints -/

/-- `app.get("/mcp/:secret/health")` of src/unnamed/part_000 (lines
63-66): gate check, then the JSON object with fields `ok` and `proxy`,
both true. The handler reads no mutable state, so it is a pure function
of the configuration and the path token. -/
def p0Health (env : Env) (token : String) : Nat × JObj :=
  if checkSecret (effectiveSecret env) token then
    (200, [("ok", .bool true), ("proxy", .bool true)])
  else
    (401, unauthorizedBody)

/-- `app.get("/mcp/:secret/health")` of src/unnamed/part_001 (lines
92-95): same gate (on the single `MCP_PATH_SECRET` variable), but the
body's second field is `mcp`, not `proxy`. -/
def p1Health (secret : Option String) (token : String) : Nat × JObj :=
  if checkSecret secret token then
    (200, [("ok", .bool true), ("mcp", .bool true)])
  else
    (401, unauthorizedBody)

/-! ## Substring test (JS `String.prototype.includes`) -/

/-- `needle` occurs at the start of `hay`. -/
def leadsWith : List Char → List Char → Bool
  | [], _ => true
  | _ :: _, [] => false
  | n :: ns, h :: hs => n = h && leadsWith ns hs

/-- `needle` occurs contiguously somewhere in `hay`. -/
def hasSubChars (needle hay : List Char) : Bool :=
  match hay with
  | [] => needle.isEmpty
  | _ :: t => leadsWith needle hay || hasSubChars needle t

/-- JS `hay.includes(needle)`. -/
def hasSub (hay needle : String) : Bool :=
  hasSubChars needle.data hay.data

/-! ## ASCII lowercasing (for case-insensitive header names)

HTTP header names are ASCII, and all the case-insensitive comparisons in
the source (`k.toLowerCase()`, fetch `Headers` name normalization, Node's
`res.setHeader`) are ASCII lowercasing, which we model directly. -/

/-- ASCII lowercasing of one character. -/
def lcChar (c : Char) : Char :=
  if 65 ≤ c.toNat ∧ c.toNat ≤ 90 then Char.ofNat (c.toNat + 32) else c

/-- ASCII lowercasing of a string (JS `s.toLowerCase()` on header names). -/
def lc (s : String) : String := ⟨s.data.map lcChar⟩

/-! ## Header containers

Three different mutable containers appear in the source, each with its
own lookup/insert semantics:

* a plain JS object (src/unnamed/part_000 line 90): exact-key lookup,
  assignment overwrites only the exactly-equal property name;
* a fetch `Headers` list (built implicitly when the object is passed to
  `fetch`, and explicitly in src/unnamed/part_001 line 153): names are
  normalized to lowercase; filling from a plain object *appends*, and
  appending an existing name combines the values with a comma and space;
  `Headers.set` replaces;
* Node's `res.setHeader` (response side): case-insensitive overwrite.
-/

/-- Lookup in a plain JS object (exact property name; a JS object holds
at most one property per name, which the insert operations below
preserve). -/
def objGet : List (String × String) → String → Option String
  | [], _ => none
  | p :: t, k => if p.1 = k then some p.2 else objGet t k

/-- Assignment `o[k] = v` on a plain JS object: overwrite the existing
property in place, else append in insertion order. -/
def objSet : List (String × String) → String → String → List (String × String)
  | [], k, v => [(k, v)]
  | p :: t, k, v => if p.1 = k then (k, v) :: t else p :: objSet t k v

/-- JS falsiness of an object property (`!o[k]`: absent or empty). -/
def objFalsyAt (o : List (String × String)) (k : String) : Bool :=
  match objGet o k with
  | none => true
  | some s => s = ""

/-- Fetch `Headers.append` (used when filling a `Headers` from a plain
object): the name is lowercased; appending to an existing name combines
the values with a comma and a space (what `Headers.get` then returns and
what the upstream sees as the field value). -/
def headersAppend : List (String × String) → String → String → List (String × String)
  | [], k, v => [(lc k, v)]
  | p :: t, k, v =>
    if p.1 = lc k then (p.1, p.2 ++ ", " ++ v) :: t else p :: headersAppend t k v

/-- Fetch `Headers.set`: lowercase the name and replace, else append. -/
def headersSet : List (String × String) → String → String → List (String × String)
  | [], k, v => [(lc k, v)]
  | p :: t, k, v => if p.1 = lc k then (p.1, v) :: t else p :: headersSet t k v

/-- Filling a fetch `Headers` from a plain JS object: append each
property in insertion order (this is what `fetch(url, do-with-headers)`
does with the plain object built in src/unnamed/part_000). -/
def toFetchHeaders (o : List (String × String)) : List (String × String) :=
  o.foldl (fun acc p => headersAppend acc p.1 p.2) []

/-- Fetch `Headers.get` (case-insensitive; keys are stored lowercased). -/
def fetchGet (h : List (String × String)) (n : String) : Option String :=
  objGet h (lc n)

/-- Node `res.setHeader`: case-insensitive overwrite (the stored name
takes the casing of the latest set), else append. -/
def resSetHeader : List (String × String) → String → String → List (String × String)
  | [], k, v => [(k, v)]
  | p :: t, k, v => if lc p.1 = lc k then (k, v) :: t else p :: resSetHeader t k v

/-- Case-insensitive lookup among response headers. -/
def resGet : List (String × String) → String → Option String
  | [], _ => none
  | p :: t, n => if lc p.1 = lc n then some p.2 else resGet t n

/-! ## Header translation (outbound request headers) -/

/-- The three header names skipped by the translation loop. -/
def dropKey (k : String) : Bool :=
  k = "host" || k = "connection" || k = "content-length"

/-- One step of the translation loop of src/unnamed/part_000 lines 90-96
(and src/index.js lines 168-174): skip falsy values, skip
`host`/`connection`/`content-length`, copy the rest (joining arrays with
a comma) into the plain object. -/
def copyStep (acc : List (String × String)) (p : String × HVal) : List (String × String) :=
  if hvalFalsy p.2 then acc
  else if dropKey (lc p.1) then acc
  else objSet acc p.1 (hvalJoin p.2)

/-- The plain `headers` object after the loop, the `Authorization`
assignment (line 99) and the `Accept` default (lines 102-104) of
src/unnamed/part_000.  Note the object ends up with *both* a copied
lowercase `authorization` property (when the inbound request had one) and
the newly assigned capital-A `Authorization` property, since plain-object
assignment is case-sensitive. -/
def buildHeadersObj (H : List (String × HVal)) (apiKey : String) : List (String × String) :=
  let base := H.foldl copyStep []
  let withAuth := objSet base "Authorization" ("Bearer " ++ apiKey)
  if objFalsyAt withAuth "Accept" && objFalsyAt withAuth "accept" then
    objSet withAuth "Accept" "text/event-stream"
  else
    withAuth

/-- The outbound header set actually sent by `fetch` in
src/unnamed/part_000: the plain object converted to fetch `Headers`
(duplicate case-insensitive names are combined, so a copied inbound
`authorization` and the injected `Authorization` both reach the
upstream). -/
def outboundHeaders (H : List (String × HVal)) (apiKey : String) : List (String × String) :=
  toFetchHeaders (buildHeadersObj H apiKey)

/-- One step of the translation loop of src/unnamed/part_001 lines
154-161, which writes directly into a fetch `Headers` via `set`. -/
def p1CopyStep (acc : List (String × String)) (p : String × HVal) : List (String × String) :=
  if hvalFalsy p.2 then acc
  else if dropKey (lc p.1) then acc
  else headersSet acc p.1 (hvalJoin p.2)

/-- The outbound `Headers` of the src/unnamed/part_001 proxy variant:
built with `Headers.set` throughout, so the `Authorization` assignment
(line 164) *replaces* any copied inbound credential, and the `Accept`
default (lines 167-169) tests presence case-insensitively via
`headers.get("Accept")`. -/
def p1OutboundHeaders (H : List (String × HVal)) (apiKey : String) : List (String × String) :=
  let base := H.foldl p1CopyStep []
  let withAuth := headersSet base "Authorization" ("Bearer " ++ apiKey)
  if (match fetchGet withAuth "Accept" with | none => true | some s => s = "") then
    headersSet withAuth "Accept" "text/event-stream"
  else
    withAuth

/-! ## Upstream dispatch (fetch with AbortController timeout) -/

/-- An upstream response as `fetch` resolves it: status, a `Headers` list
(lowercase names, values already combined), and a body delivered as a
sequence of chunks (`arrayBuffer()` yields their concatenation; the
streaming path relays them one by one). `none` models a null body. -/
structure UpstreamResponse where
  status : Nat
  headers : List (String × String)
  body : Option (List ByteSeq)
deriving DecidableEq

/-- What the network does with the single outbound call: respond after
`delay` milliseconds, fail at the network level, or never complete. -/
inductive FetchResult where
  | responds (delay : Nat) (resp : UpstreamResponse)
  | networkError (msg : String)
  | hangs
deriving DecidableEq

/-- The exceptions the `await fetch` of the handler can throw. -/
inductive JsError where
  | abortError
  | fetchFailed (msg : String)
deriving DecidableEq

/-- `err.message` as used by the catch blocks. -/
def jsErrMessage : JsError → String
  | .abortError => "This operation was aborted"
  | .fetchFailed m => m

/-- `fetch(UPSTREAM_MCP_URL, do-with-signal)` guarded by the
`setTimeout`/`AbortController` of src/unnamed/part_000 lines 110-127: a
response that arrives before the deadline resolves; one that would
arrive at or after the deadline — or never — is aborted and the promise
rejects with an abort error; a network failure rejects immediately. -/
def fetchWithTimeout (timeoutMs : Nat) : FetchResult → Except JsError UpstreamResponse
  | .responds delay resp => if delay < timeoutMs then .ok resp else .error .abortError
  | .networkError m => .error (.fetchFailed m)
  | .hangs => .error .abortError

/-- `Number(process.env.UPSTREAM_TIMEOUT_MS || 120000)`
(src/unnamed/part_000 line 111, src/index.js line 189). -/
def p0TimeoutMs (e : Env) : Nat := e.UPSTREAM_TIMEOUT_MS.getD 120000

/-! ## The inbound request and the observable outcome -/

/-- An inbound HTTP request to `/mcp/:secret` as the handler sees it:
method, the `:secret` path parameter, Node's `req.headers` (lowercased
names), and the raw body captured by `express.raw` (if any). -/
structure Request where
  method : String
  secretParam : String
  headers : List (String × HVal)
  body : Option ByteSeq
deriving DecidableEq

/-- How the relay's body reached the caller. -/
inductive RelayBody where
  | streamed (chunks : List ByteSeq)
  | buffered (bytes : ByteSeq)
  | empty
deriving DecidableEq

/-- What the caller observes from one request.
`jsonError status msg` is a JSON response whose single field `error`
holds `msg`. `relay` is a completed forward of the upstream response.
`hung` records the defective terminal state of src/index.js: status and
headers flushed, then an exception; the catch block cannot send an error
response (headers already sent), `res.end` is never called, and the
caller is left with a response that has neither a body nor an error
status. -/
inductive Resp where
  | jsonError (status : Nat) (msg : String)
  | relay (status : Nat) (headers : List (String × String)) (body : RelayBody)
  | hung (status : Nat) (headers : List (String × String))
deriving DecidableEq

/-- Outcome of one gate-checked request: how many outbound upstream
calls were issued, and what the caller got. -/
structure Outcome where
  outbound : Nat
  response : Resp
deriving DecidableEq

/-- The status the caller sees (for `hung`, the flushed status). -/
def respStatus : Resp → Nat
  | .jsonError s _ => s
  | .relay s _ _ => s
  | .hung s _ => s

/-- The response is a completed forward of an upstream response. -/
def isForwarded : Resp → Bool
  | .relay _ _ _ => true
  | _ => false

/-- The response is a termination with an error status and JSON body. -/
def isErrorTermination : Resp → Bool
  | .jsonError _ _ => true
  | _ => false

/-! ## Response headers toward the caller -/

/-- One step of a `headers.forEach(...res.setHeader...)` copy loop that
skips the names selected by `skip`. -/
def setStep (skip : String × String → Bool) (acc : List (String × String))
    (p : String × String) : List (String × String) :=
  if skip p then acc else resSetHeader acc p.1 p.2

/-- The names skipped by the response-header loop of
src/unnamed/part_000 lines 144-152: `transfer-encoding` and
`content-encoding`, both unconditionally. -/
def p0Skip (p : String × String) : Bool :=
  lc p.1 = "transfer-encoding" || lc p.1 = "content-encoding"

/-- The names skipped by the response-header loop of src/index.js lines
217-235: additionally `content-length`. -/
def idxSkip (p : String × String) : Bool :=
  p0Skip p || lc p.1 = "content-length"

/-- The two headers preset before the copy loop (src/unnamed/part_000
lines 135-136, src/index.js lines 213-214). -/
def presetHeaders : List (String × String) :=
  resSetHeader (resSetHeader [] "Cache-Control" "no-cache") "Connection" "keep-alive"

/-- Response headers set by src/unnamed/part_000 lines 132-152:
`Cache-Control` and `Connection` are set for *every* response (lines
135-136), then each upstream header is copied with `res.setHeader`
except `transfer-encoding` and `content-encoding`, which are always
skipped (lines 144-152). An upstream `cache-control` or `connection`
header overwrites the preset value. -/
def p0RespHeaders (up : List (String × String)) : List (String × String) :=
  up.foldl (setStep p0Skip) presetHeaders

/-- Response headers set by src/index.js lines 213-238: the same preset,
but `transfer-encoding`, `content-encoding` *and* `content-length` are
all skipped, and afterwards `Transfer-Encoding: chunked` is set
explicitly (line 238). -/
def idxRespHeaders (up : List (String × String)) : List (String × String) :=
  resSetHeader (up.foldl (setStep idxSkip) presetHeaders) "Transfer-Encoding" "chunked"

/-! ## The part_000 proxy handler -/

/-- Concatenation of the upstream body chunks (`await
upstreamResp.arrayBuffer()`). -/
def flattenChunks (chunks : List ByteSeq) : ByteSeq := chunks.flatten

/-- `app.all("/mcp/:secret")` of src/unnamed/part_000 (lines 69-266) as a
function from configuration, request and network behavior to the
caller-observable outcome.  Two external pieces are parameters:

* `decomp` — zlib's `createBrotliDecompress` pipeline of lines 231-239
  (an external library; `Except` models its error event);
* `pad` — the allocation slack of `Buffer.concat`: Node allocates small
  buffers (< 4 KiB) from an 8 KiB pool, so the backing `ArrayBuffer` of
  the concatenated Buffer is in general `pad.1 ++ bytes ++ pad.2` for
  some surrounding pool bytes.  Line 240 takes `decompressed.buffer`
  (the *backing* `ArrayBuffer`) and line 244 wraps the whole backing
  with `Buffer.from`, so the padding — when present — is what gets
  written to the caller.

Logging statements are omitted (they do not affect the outcome); the
outbound header set the fetch call sends is `outboundHeaders req.headers
apiKey` (modeled separately, since the outcome does not depend on it). -/
def p0Handler (env : Env) (decomp : ByteSeq → Except String ByteSeq)
    (pad : ByteSeq × ByteSeq) (req : Request) (net : FetchResult) : Outcome :=
  if !(checkSecret (effectiveSecret env) req.secretParam) then
    { outbound := 0, response := .jsonError 401 "Unauthorized" }
  else if optFalsy env.RENDER_API_KEY then
    { outbound := 0, response := .jsonError 500 "Missing RENDER_API_KEY env var" }
  else
    match fetchWithTimeout (p0TimeoutMs env) net with
    | .error e =>
      -- outer catch (lines 262-265): responds 500 with the error message
      { outbound := 1, response := .jsonError 500 (jsErrMessage e) }
    | .ok resp =>
      let rh := p0RespHeaders resp.headers
      match resp.body with
      | none => { outbound := 1, response := .relay resp.status rh .empty }
      | some chunks =>
        let contentType := (fetchGet resp.headers "content-type").getD ""
        let contentLength := fetchGet resp.headers "content-length"
        -- line 167: `if (isSSE && !contentLength)`
        if hasSub contentType "text/event-stream" && (contentLength.getD "" = "") then
          { outbound := 1, response := .relay resp.status rh (.streamed chunks) }
        else
          let bytes := flattenChunks chunks
          let contentEncoding := (fetchGet resp.headers "content-encoding").getD ""
          if hasSub contentEncoding "br" then
            match decomp bytes with
            | .ok d =>
              -- lines 240-247: buffer = decompressed.buffer (the whole
              -- backing ArrayBuffer), then res.write(Buffer.from(buffer))
              { outbound := 1
                response := .relay resp.status rh (.buffered (pad.1 ++ d ++ pad.2)) }
            | .error m =>
              { outbound := 1
                response := .jsonError 502 ("Failed to read upstream response: " ++ m) }
          else
            { outbound := 1, response := .relay resp.status rh (.buffered bytes) }

/-! ## The src/index.js proxy handler -/

/-- `app.all("/mcp/:secret")` of src/index.js (lines 134-290).  Same
gate, credential check and timed fetch as part_000, but the response
section never classifies: for every body-bearing upstream response it
flushes status and headers (line 246) and enters the streaming
pass-through — which at line 251 reads the variable `nodeStream`, never
assigned (line 244 evaluates `Readable.fromWeb(upstreamResp.body)` and
discards the result).  Evaluation therefore throws a `ReferenceError`
after the headers are sent; the catch block (lines 285-289) then calls
`res.status(500).json(...)`, which itself throws because the headers are
already sent, so the caller receives the flushed status/headers and
nothing else: the `hung` outcome. -/
def idxHandler (env : Env) (req : Request) (net : FetchResult) : Outcome :=
  if !(checkSecret (effectiveSecret env) req.secretParam) then
    { outbound := 0, response := .jsonError 401 "Unauthorized" }
  else if optFalsy env.RENDER_API_KEY then
    { outbound := 0, response := .jsonError 500 "Missing RENDER_API_KEY env var" }
  else
    match fetchWithTimeout (p0TimeoutMs env) net with
    | .error e => { outbound := 1, response := .jsonError 500 (jsErrMessage e) }
    | .ok resp =>
      let rh := idxRespHeaders resp.headers
      match resp.body with
      | none => { outbound := 1, response := .relay resp.status rh .empty }
      | some _ => { outbound := 1, response := .hung resp.status rh }

/-! ## The translation loop as a filter (specification side) -/

/-- Per-entry effect of the translation loop: `none` when the entry is
dropped (falsy value, or one of `host`/`connection`/`content-length`),
otherwise the copied pair. -/
def keepHeader (p : String × HVal) : Option (String × String) :=
  if hvalFalsy p.2 then none
  else if dropKey (lc p.1) then none
  else some (p.1, hvalJoin p.2)

/-- First non-falsy inbound header with the given (exact) name, joined. -/
def inboundLookup : List (String × HVal) → String → Option String
  | [], _ => none
  | p :: t, m =>
    if p.1 = m ∧ hvalFalsy p.2 = false then some (hvalJoin p.2) else inboundLookup t m

/-! ## Characterizing the object-to-Headers conversion -/

/-- Values of all entries whose (lowercased) name matches `m`, in order. -/
def matchValues : List (String × String) → String → List String
  | [], _ => []
  | p :: t, m => if m = lc p.1 then p.2 :: matchValues t m else matchValues t m

/-- Folding `Headers.append` combines matching values left to right with
a comma and a space. -/
def combineAll : Option String → List String → Option String
  | o, [] => o
  | o, v :: vs =>
    combineAll (some (match o with | some s => s ++ ", " ++ v | none => v)) vs

/-! ## The outbound header set, characterized name by name -/

/-- What the amended header-translation contract says the outbound header
set holds at name `n`:

* `host`, `connection`, `content-length` (and headers with empty values)
  are absent;
* `authorization` carries the injected bearer credential, *appended
  after* any copied inbound credential (comma-combined), rather than
  replacing it;
* `accept` is the inbound value, defaulting to `text/event-stream`;
* every other name holds the inbound value verbatim (arrays joined with
  a comma). -/
def claimedLookup (H : List (String × HVal)) (apiKey n : String) : Option String :=
  if dropKey (lc n) then none
  else if lc n = "authorization" then
    some (match inboundLookup H (lc n) with
          | some v => v ++ ", " ++ ("Bearer " ++ apiKey)
          | none => "Bearer " ++ apiKey)
  else if lc n = "accept" then
    some ((inboundLookup H (lc n)).getD "text/event-stream")
  else inboundLookup H (lc n)

/-- Same for the src/unnamed/part_001 variant, whose `Headers.set`
*replaces* the inbound credential. -/
def p1ClaimedLookup (H : List (String × HVal)) (apiKey n : String) : Option String :=
  if dropKey (lc n) then none
  else if lc n = "authorization" then some ("Bearer " ++ apiKey)
  else if lc n = "accept" then
    some ((inboundLookup H (lc n)).getD "text/event-stream")
  else inboundLookup H (lc n)

/-! ## Characterizing the response-header copy loops -/

/-- First upstream entry whose name case-insensitively matches `m` and is
not skipped by the loop. -/
def lookupSkip (skip : String × String → Bool) :
    List (String × String) → String → Option String
  | [], _ => none
  | p :: t, m => if !skip p && lc p.1 = lc m then some p.2 else lookupSkip skip t m

/-- What src/unnamed/part_000 actually sends back at response-header name
`n`: `transfer-encoding` and `content-encoding` are always absent,
`cache-control`/`connection` default to the preset values (the upstream
value wins if it sent one), everything else — `content-length` included —
is the upstream value. -/
def claimedRespLookup (up : List (String × String)) (n : String) : Option String :=
  if lc n = "transfer-encoding" || lc n = "content-encoding" then none
  else if lc n = "cache-control" then some ((objGet up (lc n)).getD "no-cache")
  else if lc n = "connection" then some ((objGet up (lc n)).getD "keep-alive")
  else objGet up (lc n)

/-- Same for src/index.js: `content-length` is also dropped and
`Transfer-Encoding` is forced to `chunked`. -/
def idxClaimedRespLookup (up : List (String × String)) (n : String) : Option String :=
  if lc n = "transfer-encoding" then some "chunked"
  else if lc n = "content-encoding" || lc n = "content-length" then none
  else if lc n = "cache-control" then some ((objGet up (lc n)).getD "no-cache")
  else if lc n = "connection" then some ((objGet up (lc n)).getD "keep-alive")
  else objGet up (lc n)

/-- The names skipped by the response-header loop of src/unnamed/part_001
lines 186-191: only `transfer-encoding`. -/
def p1RespSkip (p : String × String) : Bool := lc p.1 = "transfer-encoding"

/-- Response headers set by the src/unnamed/part_001 proxy variant: no
preset headers, every upstream header copied except `transfer-encoding`. -/
def p1RespHeaders (up : List (String × String)) : List (String × String) :=
  up.foldl (setStep p1RespSkip) []

/-! ## Concrete fixtures used by witnesses and counterexamples -/

/-- Gate open, API key configured, default timeout. -/
def openEnv : Env :=
  { MCP_PATH_SECRET := none, MCP_SHARED_SECRET := none,
    RENDER_API_KEY := some "K", UPSTREAM_TIMEOUT_MS := none }

/-- The secret environment variable set to the empty string. -/
def emptySecretEnv : Env :=
  { MCP_PATH_SECRET := none, MCP_SHARED_SECRET := some "",
    RENDER_API_KEY := some "K", UPSTREAM_TIMEOUT_MS := none }

/-- A secret configured but no API key. -/
def keylessEnv : Env :=
  { MCP_PATH_SECRET := some "s", MCP_SHARED_SECRET := none,
    RENDER_API_KEY := none, UPSTREAM_TIMEOUT_MS := none }

/-- A plain POST to the proxy endpoint. -/
def sampleReq : Request :=
  { method := "POST", secretParam := "s",
    headers := [("accept", .str "text/event-stream")], body := some [7] }

/-- An ordinary JSON response with a declared length. -/
def jsonUpstream : UpstreamResponse :=
  { status := 200,
    headers := [("content-type", "application/json"), ("content-length", "5")],
    body := some [[10, 20, 30, 40, 50]] }

/-- An SSE response without a declared length. -/
def sseUpstream : UpstreamResponse :=
  { status := 200, headers := [("content-type", "text/event-stream")],
    body := some [[1, 2], [3]] }

/-- A brotli-compressed buffered response. -/
def brUpstream : UpstreamResponse :=
  { status := 200,
    headers := [("content-type", "application/json"), ("content-encoding", "br")],
    body := some [[1, 2, 3]] }

/-- A text response with a declared length (non-SSE). -/
def plainUpstream : UpstreamResponse :=
  { status := 200,
    headers := [("content-type", "text/plain"), ("content-length", "2")],
    body := some [[9, 9]] }

/-- A buffered response with a content-encoding the relay does not
decompress (`gzip` does not contain `br`). -/
def gzipUpstream : UpstreamResponse :=
  { status := 200,
    headers := [("content-type", "application/json"), ("content-length", "4"),
                ("content-encoding", "gzip"), ("x-custom", "1")],
    body := some [[5, 6, 7, 8]] }

/-- A stand-in for the zlib brotli decoder on the one compressed input the
concrete theorems use (the relay treats the decoder as a black box; only
the byte plumbing around it is at issue). -/
def sampleDecomp : ByteSeq → Except String ByteSeq :=
  fun b => if b = [1, 2, 3] then .ok [104, 105] else .error "unexpected input"

/-- An allocation in which `Buffer.concat` returns a buffer whose backing
store holds exactly the content bytes. -/
def noPad : ByteSeq × ByteSeq := ([], [])

/-- An allocation in which `Buffer.concat` returns a pooled buffer: the
backing `ArrayBuffer` holds a garbage byte after the content (Node pools
allocations under 4 KiB inside an 8 KiB slab). -/
def poolPad : ByteSeq × ByteSeq := ([], [42])

/-- The relay delivered a buffered single write. -/
def isBufferedWrite : Resp → Bool
  | .relay _ _ (.buffered _) => true
  | _ => false

/-- The part_000 classification condition: content type declares
`text/event-stream` (substring test) and no nonempty `content-length` is
declared. -/
def sseStreamCond (resp : UpstreamResponse) : Prop :=
  hasSub ((fetchGet resp.headers "content-type").getD "") "text/event-stream" = true ∧
  (fetchGet resp.headers "content-length").getD "" = ""

instance (resp : UpstreamResponse) : Decidable (sseStreamCond resp) := by
  unfold sseStreamCond
  infer_instance

/-! ## Lemmas, evaluations and claims -/

example : hasSub "text/event-stream; charset=utf-8" "text/event-stream" = true := by decide
example : hasSub "application/json" "text/event-stream" = false := by decide
example : (lc "Authorization" = "authorization") := by decide
example : (lc "content-length" = "content-length") := by decide

/-! ## Lookup/insert lemmas for the header containers -/

theorem objGet_objSet (o : List (String × String)) (k v m : String) :
    objGet (objSet o k v) m = if m = k then some v else objGet o m := by
  induction o with
  | nil =>
    by_cases hm : m = k
    · subst hm; simp [objSet, objGet]
    · have hkm : ¬ (k = m) := fun h => hm h.symm
      simp [objSet, objGet, hm, hkm]
  | cons p t ih =>
    by_cases hp : p.1 = k
    · by_cases hm : m = k
      · subst hm; simp [objSet, objGet, hp]
      · have hkm : ¬ (k = m) := fun h => hm h.symm
        have hpm : ¬ (p.1 = m) := by rw [hp]; exact hkm
        simp [objSet, objGet, hp, hm, hkm, hpm]
    · by_cases hpm : p.1 = m
      · have hmk : ¬ (m = k) := fun h => hp (hpm.trans h)
        simp [objSet, objGet, hp, hpm, hmk]
      · simp [objSet, objGet, hp, hpm, ih]

theorem objSet_fresh (o : List (String × String)) (k v : String)
    (h : k ∉ o.map Prod.fst) : objSet o k v = o ++ [(k, v)] := by
  induction o with
  | nil => rfl
  | cons p t ih =>
    simp only [List.map_cons, List.mem_cons] at h
    push_neg at h
    have hp : ¬ (p.1 = k) := fun hh => h.1 hh.symm
    simp [objSet, hp, ih h.2]

theorem objGet_headersAppend (o : List (String × String)) (k v m : String) :
    objGet (headersAppend o k v) m =
      if m = lc k then
        some (match objGet o (lc k) with | some s => s ++ ", " ++ v | none => v)
      else objGet o m := by
  induction o with
  | nil =>
    by_cases hm : m = lc k
    · subst hm; simp [headersAppend, objGet]
    · have hkm : ¬ (lc k = m) := fun h => hm h.symm
      simp [headersAppend, objGet, hm, hkm]
  | cons p t ih =>
    by_cases hp : p.1 = lc k
    · by_cases hm : m = lc k
      · subst hm
        simp [headersAppend, objGet, hp]
      · have hkm : ¬ (lc k = m) := fun h => hm h.symm
        have hpm : ¬ (p.1 = m) := by rw [hp]; exact hkm
        simp [headersAppend, objGet, hp, hm, hpm, hkm]
    · by_cases hpm : p.1 = m
      · have hmk : ¬ (m = lc k) := fun h => hp (hpm.trans h)
        simp [headersAppend, objGet, hp, hpm, hmk]
      · by_cases hm : m = lc k
        · subst hm
          simp [headersAppend, objGet, hp, hpm, ih, fun h => hp (Eq.symm h)]
        · simp [headersAppend, objGet, hp, hpm, hm, ih]

theorem objGet_headersSet (o : List (String × String)) (k v m : String) :
    objGet (headersSet o k v) m = if m = lc k then some v else objGet o m := by
  induction o with
  | nil =>
    by_cases hm : m = lc k
    · subst hm; simp [headersSet, objGet]
    · have hkm : ¬ (lc k = m) := fun h => hm h.symm
      simp [headersSet, objGet, hm, hkm]
  | cons p t ih =>
    by_cases hp : p.1 = lc k
    · by_cases hm : m = lc k
      · subst hm; simp [headersSet, objGet, hp]
      · have hkm : ¬ (lc k = m) := fun h => hm h.symm
        have hpm : ¬ (p.1 = m) := by rw [hp]; exact hkm
        simp [headersSet, objGet, hp, hm, hpm, hkm]
    · by_cases hpm : p.1 = m
      · have hmk : ¬ (m = lc k) := fun h => hp (hpm.trans h)
        simp [headersSet, objGet, hp, hpm, hmk]
      · simp [headersSet, objGet, hp, hpm, ih]

theorem headersSet_fresh (o : List (String × String)) (k v : String)
    (h : lc k ∉ o.map Prod.fst) : headersSet o k v = o ++ [(lc k, v)] := by
  induction o with
  | nil => rfl
  | cons p t ih =>
    simp only [List.map_cons, List.mem_cons] at h
    push_neg at h
    have hp : ¬ (p.1 = lc k) := fun hh => h.1 hh.symm
    simp [headersSet, hp, ih h.2]

theorem resGet_resSetHeader (o : List (String × String)) (k v m : String) :
    resGet (resSetHeader o k v) m = if lc m = lc k then some v else resGet o m := by
  induction o with
  | nil =>
    by_cases hm : lc m = lc k
    · simp [resSetHeader, resGet, hm]
    · have hkm : ¬ (lc k = lc m) := fun h => hm h.symm
      simp [resSetHeader, resGet, hm, hkm]
  | cons p t ih =>
    by_cases hp : lc p.1 = lc k
    · by_cases hm : lc m = lc k
      · simp [resSetHeader, resGet, hp, hm.symm]
      · have hkm : ¬ (lc k = lc m) := fun h => hm h.symm
        have hpm : ¬ (lc p.1 = lc m) := by rw [hp]; exact hkm
        simp [resSetHeader, resGet, hp, hm, hpm, hkm]
    · by_cases hpm : lc p.1 = lc m
      · have hmk : ¬ (lc m = lc k) := fun h => hp (hpm.trans h)
        simp [resSetHeader, resGet, hp, hpm, hmk]
      · simp [resSetHeader, resGet, hp, hpm, ih]

theorem keep_eq_some {a : String × HVal} {q : String × String}
    (h : keepHeader a = some q) :
    q.1 = a.1 ∧ q.2 = hvalJoin a.2 ∧ hvalFalsy a.2 = false ∧ dropKey (lc a.1) = false := by
  unfold keepHeader at h
  by_cases h1 : hvalFalsy a.2 = true
  · simp [h1] at h
  · by_cases h2 : dropKey (lc a.1) = true
    · simp [h1, h2] at h
    · rw [if_neg (by simpa using h1), if_neg (by simpa using h2)] at h
      have hq := (Option.some_inj.mp h).symm
      refine ⟨by rw [hq], by rw [hq], by simpa using h1, by simpa using h2⟩

theorem copyFold (H : List (String × HVal)) (acc : List (String × String))
    (hfresh : ∀ p ∈ H, p.1 ∉ acc.map Prod.fst)
    (hnd : (H.map Prod.fst).Nodup) :
    H.foldl copyStep acc = acc ++ H.filterMap keepHeader := by
  induction H generalizing acc with
  | nil => simp
  | cons p t ih =>
    simp only [List.map_cons, List.nodup_cons] at hnd
    by_cases h1 : hvalFalsy p.2 = true
    · have hstep : copyStep acc p = acc := by simp [copyStep, h1]
      have hkeep : keepHeader p = none := by simp [keepHeader, h1]
      simp only [List.foldl_cons, hstep, List.filterMap_cons, hkeep]
      exact ih acc (fun q hq => hfresh q (List.mem_cons_of_mem p hq)) hnd.2
    · by_cases h2 : dropKey (lc p.1) = true
      · have hstep : copyStep acc p = acc := by simp [copyStep, h1, h2]
        have hkeep : keepHeader p = none := by simp [keepHeader, h1, h2]
        simp only [List.foldl_cons, hstep, List.filterMap_cons, hkeep]
        exact ih acc (fun q hq => hfresh q (List.mem_cons_of_mem p hq)) hnd.2
      · have hstep : copyStep acc p = objSet acc p.1 (hvalJoin p.2) := by
          simp [copyStep, h1, h2]
        have hkeep : keepHeader p = some (p.1, hvalJoin p.2) := by
          simp [keepHeader, h1, h2]
        have hset : objSet acc p.1 (hvalJoin p.2) = acc ++ [(p.1, hvalJoin p.2)] :=
          objSet_fresh acc p.1 (hvalJoin p.2) (hfresh p (List.mem_cons_self p t))
        simp only [List.foldl_cons, hstep, hset, List.filterMap_cons, hkeep]
        rw [ih (acc ++ [(p.1, hvalJoin p.2)])
            (fun q hq => by
              simp only [List.map_append, List.mem_append, List.map_cons, List.map_nil,
                List.mem_singleton, not_or]
              refine ⟨hfresh q (List.mem_cons_of_mem p hq), ?_⟩
              intro hq1
              exact hnd.1 (hq1 ▸ List.mem_map.mpr ⟨q, hq, rfl⟩))
            hnd.2]
        simp

theorem p1CopyFold (H : List (String × HVal)) (acc : List (String × String))
    (hlc : ∀ p ∈ H, lc p.1 = p.1)
    (hfresh : ∀ p ∈ H, p.1 ∉ acc.map Prod.fst)
    (hnd : (H.map Prod.fst).Nodup) :
    H.foldl p1CopyStep acc = acc ++ H.filterMap keepHeader := by
  induction H generalizing acc with
  | nil => simp
  | cons p t ih =>
    simp only [List.map_cons, List.nodup_cons] at hnd
    have hlcp : lc p.1 = p.1 := hlc p (List.mem_cons_self p t)
    by_cases h1 : hvalFalsy p.2 = true
    · have hstep : p1CopyStep acc p = acc := by simp [p1CopyStep, h1]
      have hkeep : keepHeader p = none := by simp [keepHeader, h1]
      simp only [List.foldl_cons, hstep, List.filterMap_cons, hkeep]
      exact ih acc (fun q hq => hlc q (List.mem_cons_of_mem p hq))
        (fun q hq => hfresh q (List.mem_cons_of_mem p hq)) hnd.2
    · by_cases h2 : dropKey (lc p.1) = true
      · have hstep : p1CopyStep acc p = acc := by simp [p1CopyStep, h1, h2]
        have hkeep : keepHeader p = none := by simp [keepHeader, h1, h2]
        simp only [List.foldl_cons, hstep, List.filterMap_cons, hkeep]
        exact ih acc (fun q hq => hlc q (List.mem_cons_of_mem p hq))
          (fun q hq => hfresh q (List.mem_cons_of_mem p hq)) hnd.2
      · have hstep : p1CopyStep acc p = headersSet acc p.1 (hvalJoin p.2) := by
          simp [p1CopyStep, h1, h2]
        have hkeep : keepHeader p = some (p.1, hvalJoin p.2) := by
          simp [keepHeader, h1, h2]
        have hset : headersSet acc p.1 (hvalJoin p.2) = acc ++ [(p.1, hvalJoin p.2)] := by
          rw [headersSet_fresh acc p.1 (hvalJoin p.2) (by rw [hlcp]; exact hfresh p (List.mem_cons_self p t)), hlcp]
        simp only [List.foldl_cons, hstep, hset, List.filterMap_cons, hkeep]
        rw [ih (acc ++ [(p.1, hvalJoin p.2)]) (fun q hq => hlc q (List.mem_cons_of_mem p hq))
            (fun q hq => by
              simp only [List.map_append, List.mem_append, List.map_cons, List.map_nil,
                List.mem_singleton, not_or]
              refine ⟨hfresh q (List.mem_cons_of_mem p hq), ?_⟩
              intro hq1
              exact hnd.1 (hq1 ▸ List.mem_map.mpr ⟨q, hq, rfl⟩))
            hnd.2]
        simp

theorem objGet_toFetchFold (L : List (String × String))
    (acc : List (String × String)) (m : String) :
    objGet (L.foldl (fun a p => headersAppend a p.1 p.2) acc) m =
      combineAll (objGet acc m) (matchValues L m) := by
  induction L generalizing acc with
  | nil => rfl
  | cons p t ih =>
    simp only [List.foldl_cons, matchValues]
    by_cases hm : m = lc p.1
    · rw [ih, objGet_headersAppend, if_pos hm, if_pos hm, ← hm]
      rfl
    · rw [ih, if_neg hm, objGet_headersAppend, if_neg hm]

theorem objGet_toFetchHeaders (o : List (String × String)) (m : String) :
    objGet (toFetchHeaders o) m = combineAll none (matchValues o m) := by
  unfold toFetchHeaders
  rw [objGet_toFetchFold]
  rfl

theorem matchValues_append (a b : List (String × String)) (m : String) :
    matchValues (a ++ b) m = matchValues a m ++ matchValues b m := by
  induction a with
  | nil => rfl
  | cons p t ih =>
    by_cases hm : m = lc p.1
    · simp only [List.cons_append, matchValues, if_pos hm]
      exact congrArg (p.2 :: ·) ih
    · simp only [List.cons_append, matchValues, if_neg hm]
      exact ih

theorem matchValues_absent (l : List (String × String)) (m : String)
    (hlc : ∀ p ∈ l, lc p.1 = p.1) (h : m ∉ l.map Prod.fst) :
    matchValues l m = [] := by
  induction l with
  | nil => rfl
  | cons p t ih =>
    simp only [List.map_cons, List.mem_cons] at h
    push_neg at h
    have hplc : lc p.1 = p.1 := hlc p (List.mem_cons_self p t)
    have hm : ¬ (m = lc p.1) := by rw [hplc]; exact h.1
    simp [matchValues, hm, ih (fun q hq => hlc q (List.mem_cons_of_mem p hq)) h.2]

theorem matchValues_nodup (l : List (String × String)) (m : String)
    (hlc : ∀ p ∈ l, lc p.1 = p.1) (hnd : (l.map Prod.fst).Nodup) :
    matchValues l m =
      match objGet l m with
      | some v => [v]
      | none => [] := by
  induction l with
  | nil => rfl
  | cons p t ih =>
    simp only [List.map_cons, List.nodup_cons] at hnd
    have hplc : lc p.1 = p.1 := hlc p (List.mem_cons_self p t)
    by_cases hm : m = lc p.1
    · have hm1 : p.1 = m := by rw [hm]; exact hplc.symm
      have habs : matchValues t m = [] := by
        apply matchValues_absent t m (fun q hq => hlc q (List.mem_cons_of_mem p hq))
        rw [← hm1]
        exact hnd.1
      simp only [matchValues, if_pos hm, objGet, if_pos hm1, habs]
    · have hm1 : ¬ (p.1 = m) := by
        intro hh
        exact hm (by rw [← hh, hplc])
      simp only [matchValues, if_neg hm, objGet, if_neg hm1,
        ih (fun q hq => hlc q (List.mem_cons_of_mem p hq)) hnd.2]

/-! ## Keys of the filtered translation -/

theorem keep_keys_sublist (H : List (String × HVal)) :
    ((H.filterMap keepHeader).map Prod.fst).Sublist (H.map Prod.fst) := by
  induction H with
  | nil => simp
  | cons p t ih =>
    cases hk : keepHeader p with
    | none =>
      simp only [List.filterMap_cons, hk, List.map_cons]
      exact ih.cons p.1
    | some q =>
      have hq1 : q.1 = p.1 := (keep_eq_some hk).1
      simp only [List.filterMap_cons, hk, List.map_cons, hq1]
      exact ih.cons₂ p.1

theorem keep_keys_lc (H : List (String × HVal)) (hlc : ∀ p ∈ H, lc p.1 = p.1) :
    ∀ q ∈ H.filterMap keepHeader, lc q.1 = q.1 := by
  intro q hq
  obtain ⟨a, ha, hk⟩ := List.mem_filterMap.mp hq
  rw [(keep_eq_some hk).1]
  exact hlc a ha

theorem keep_keys_nodup (H : List (String × HVal))
    (hnd : (H.map Prod.fst).Nodup) :
    ((H.filterMap keepHeader).map Prod.fst).Nodup :=
  (keep_keys_sublist H).nodup hnd

theorem objGet_keep (H : List (String × HVal)) (m : String)
    (hdrop : ∀ p ∈ H, p.1 = m → dropKey (lc p.1) = false) :
    objGet (H.filterMap keepHeader) m = inboundLookup H m := by
  induction H with
  | nil => rfl
  | cons p t ih =>
    have iht := ih (fun q hq => hdrop q (List.mem_cons_of_mem p hq))
    by_cases h1 : hvalFalsy p.2 = true
    · have hkeep : keepHeader p = none := by simp [keepHeader, h1]
      have hcond : ¬ (p.1 = m ∧ hvalFalsy p.2 = false) := by
        intro hh
        rw [h1] at hh
        exact absurd hh.2 (by simp)
      simp only [List.filterMap_cons, hkeep, inboundLookup, if_neg hcond]
      exact iht
    · by_cases hpm : p.1 = m
      · have h2 : dropKey (lc p.1) = false := hdrop p (List.mem_cons_self p t) hpm
        have hkeep : keepHeader p = some (p.1, hvalJoin p.2) := by
          simp [keepHeader, h1, h2]
        have hcond : p.1 = m ∧ hvalFalsy p.2 = false := ⟨hpm, by simpa using h1⟩
        simp only [List.filterMap_cons, hkeep, inboundLookup, if_pos hcond, objGet,
          if_pos hpm]
      · have hcond : ¬ (p.1 = m ∧ hvalFalsy p.2 = false) := fun hh => hpm hh.1
        cases hk : keepHeader p with
        | none =>
          simp only [List.filterMap_cons, hk, inboundLookup, if_neg hcond]
          exact iht
        | some q =>
          have hq1 : q.1 = p.1 := (keep_eq_some hk).1
          have hqm : ¬ (q.1 = m) := by rw [hq1]; exact hpm
          simp only [List.filterMap_cons, hk, inboundLookup, if_neg hcond, objGet,
            if_neg hqm]
          exact iht

theorem objGet_keep_dropped (H : List (String × HVal)) (m : String)
    (hlc : ∀ p ∈ H, lc p.1 = p.1) (hdrop : dropKey m = true) :
    objGet (H.filterMap keepHeader) m = none := by
  induction H with
  | nil => rfl
  | cons p t ih =>
    have iht := ih (fun q hq => hlc q (List.mem_cons_of_mem p hq))
    cases hk : keepHeader p with
    | none => simp only [List.filterMap_cons, hk]; exact iht
    | some q =>
      have hks := keep_eq_some hk
      have hqm : ¬ (q.1 = m) := by
        intro hh
        have : dropKey (lc p.1) = true := by
          rw [hlc p (List.mem_cons_self p t), ← hks.1, hh]
          exact hdrop
        rw [this] at hks
        exact absurd hks.2.2.2 (by simp)
      simp only [List.filterMap_cons, hk, objGet, if_neg hqm]
      exact iht

theorem objGet_some_mem (l : List (String × String)) (m v : String)
    (h : objGet l m = some v) : (m, v) ∈ l := by
  induction l with
  | nil => exact absurd h (by simp [objGet])
  | cons p t ih =>
    by_cases hp : p.1 = m
    · rw [objGet, if_pos hp] at h
      have : p = (m, v) := by
        have hv := Option.some_inj.mp h
        exact Prod.ext hp hv
      rw [← this]
      exact List.mem_cons_self p t
    · rw [objGet, if_neg hp] at h
      exact List.mem_cons_of_mem p (ih h)

theorem objGet_keep_ne_empty (H : List (String × HVal)) (m v : String)
    (hne : ∀ p ∈ H, hvalFalsy p.2 = false → hvalJoin p.2 ≠ "")
    (h : objGet (H.filterMap keepHeader) m = some v) : v ≠ "" := by
  obtain ⟨a, ha, hk⟩ := List.mem_filterMap.mp (objGet_some_mem _ m v h)
  have hks := keep_eq_some hk
  have hv : v = hvalJoin a.2 := hks.2.1
  rw [hv]
  exact hne a ha hks.2.2.1

/-! ## Small lookup lemmas used by the characterizations -/

theorem objGet_append (a b : List (String × String)) (m : String) :
    objGet (a ++ b) m =
      match objGet a m with
      | some v => some v
      | none => objGet b m := by
  induction a with
  | nil => rfl
  | cons p t ih =>
    by_cases hp : p.1 = m
    · simp [objGet, hp]
    · simp only [List.cons_append, objGet, if_neg hp]
      exact ih

theorem objGet_none_of_not_mem {l : List (String × String)} {m : String}
    (h : m ∉ l.map Prod.fst) : objGet l m = none := by
  induction l with
  | nil => rfl
  | cons p t ih =>
    simp only [List.map_cons, List.mem_cons] at h
    push_neg at h
    have hp : ¬ (p.1 = m) := fun hh => h.1 hh.symm
    simp only [objGet, if_neg hp]
    exact ih h.2

theorem not_mem_keys_of_lc_ne {l : List (String × String)} {s : String}
    (hlc : ∀ p ∈ l, lc p.1 = p.1) (hs : ¬ (lc s = s)) : s ∉ l.map Prod.fst := by
  intro hmem
  obtain ⟨p, hp, hps⟩ := List.mem_map.mp hmem
  exact hs (by rw [← hps]; exact hlc p hp)

theorem matchValues_single (p : String × String) (m : String) :
    matchValues [p] m = if m = lc p.1 then [p.2] else [] := by
  by_cases h : m = lc p.1 <;> simp [matchValues, h]

theorem outboundHeaders_spec (H : List (String × HVal)) (apiKey n : String)
    (hlc : ∀ p ∈ H, lc p.1 = p.1)
    (hnd : (H.map Prod.fst).Nodup)
    (hne : ∀ p ∈ H, hvalFalsy p.2 = false → hvalJoin p.2 ≠ "") :
    fetchGet (outboundHeaders H apiKey) n = claimedLookup H apiKey n := by
  have hbase : H.foldl copyStep [] = H.filterMap keepHeader := by
    simpa using copyFold H [] (by simp) hnd
  have hblc := keep_keys_lc H hlc
  have hbnd := keep_keys_nodup H hnd
  have hAuthFresh : ("Authorization" : String) ∉ (H.filterMap keepHeader).map Prod.fst :=
    not_mem_keys_of_lc_ne hblc (by decide)
  have hAccFresh : ("Accept" : String) ∉ (H.filterMap keepHeader).map Prod.fst :=
    not_mem_keys_of_lc_ne hblc (by decide)
  have hA : objSet (H.filterMap keepHeader) "Authorization" ("Bearer " ++ apiKey) =
      H.filterMap keepHeader ++ [("Authorization", "Bearer " ++ apiKey)] :=
    objSet_fresh _ _ _ hAuthFresh
  have hgetAccUp :
      objGet (H.filterMap keepHeader ++ [("Authorization", "Bearer " ++ apiKey)]) "Accept" =
        none := by
    rw [objGet_append, objGet_none_of_not_mem hAccFresh]
    simp only [objGet, if_neg (show ¬ (("Authorization" : String) = "Accept") by decide)]
  have hgetAccLow :
      objGet (H.filterMap keepHeader ++ [("Authorization", "Bearer " ++ apiKey)]) "accept" =
        objGet (H.filterMap keepHeader) "accept" := by
    rw [objGet_append]
    cases h : objGet (H.filterMap keepHeader) "accept" with
    | some v => rfl
    | none =>
      simp only [objGet, if_neg (show ¬ (("Authorization" : String) = "accept") by decide)]
  have hmB : ∀ c, matchValues (H.filterMap keepHeader) c =
      match objGet (H.filterMap keepHeader) c with
      | some v => [v]
      | none => [] := fun c => matchValues_nodup _ c hblc hbnd
  have hinb : ∀ c, dropKey c = false →
      objGet (H.filterMap keepHeader) c = inboundLookup H c := by
    intro c hc
    apply objGet_keep
    intro p hp hpc
    rw [hlc p hp, hpc]
    exact hc
  cases hacc : objGet (H.filterMap keepHeader) "accept" with
  | some v =>
    have hvne : v ≠ "" := objGet_keep_ne_empty H "accept" v hne hacc
    have hbuild : buildHeadersObj H apiKey =
        H.filterMap keepHeader ++ [("Authorization", "Bearer " ++ apiKey)] := by
      unfold buildHeadersObj
      rw [hbase]
      simp only [hA]
      have hfalsy : objFalsyAt
          (H.filterMap keepHeader ++ [("Authorization", "Bearer " ++ apiKey)]) "accept" =
          false := by
        unfold objFalsyAt
        rw [hgetAccLow, hacc]
        simpa using hvne
      rw [hfalsy]
      simp
    unfold outboundHeaders fetchGet
    rw [hbuild, objGet_toFetchHeaders, matchValues_append, hmB, matchValues_single]
    by_cases hdk : dropKey (lc n) = true
    · have hdrop : objGet (H.filterMap keepHeader) (lc n) = none :=
        objGet_keep_dropped H (lc n) hlc hdk
      have hna : ¬ (lc n = lc "Authorization") := by
        intro hh
        rw [hh] at hdk
        exact absurd hdk (by decide)
      rw [hdrop, if_neg hna]
      unfold claimedLookup
      rw [if_pos hdk]
      rfl
    · have hdkf : dropKey (lc n) = false := by simpa using hdk
      rw [hinb (lc n) hdkf]
      by_cases hau : lc n = "authorization"
      · have hau2 : lc n = lc "Authorization" := by rw [hau]; decide
        rw [if_pos hau2]
        unfold claimedLookup
        rw [if_neg hdk, if_pos hau]
        cases hi : inboundLookup H (lc n) with
        | some w => rfl
        | none => rfl
      · have hnau : ¬ (lc n = lc "Authorization") := by
          intro hh
          exact hau (by rw [hh]; decide)
        rw [if_neg hnau]
        by_cases hac : lc n = "accept"
        · unfold claimedLookup
          rw [if_neg hdk, if_neg hau, if_pos hac, hac, ← hinb "accept" (by decide), hacc]
          rfl
        · unfold claimedLookup
          rw [if_neg hdk, if_neg hau, if_neg hac]
          cases hi : inboundLookup H (lc n) with
          | some w => rfl
          | none => rfl
  | none =>
    have hbuild : buildHeadersObj H apiKey =
        H.filterMap keepHeader ++ [("Authorization", "Bearer " ++ apiKey)] ++
          [("Accept", "text/event-stream")] := by
      unfold buildHeadersObj
      rw [hbase]
      simp only [hA]
      have hfalsyUp : objFalsyAt
          (H.filterMap keepHeader ++ [("Authorization", "Bearer " ++ apiKey)]) "Accept" =
          true := by
        unfold objFalsyAt
        rw [hgetAccUp]
      have hfalsyLow : objFalsyAt
          (H.filterMap keepHeader ++ [("Authorization", "Bearer " ++ apiKey)]) "accept" =
          true := by
        unfold objFalsyAt
        rw [hgetAccLow, hacc]
      rw [hfalsyUp, hfalsyLow]
      simp only [Bool.and_self, if_true]
      apply objSet_fresh
      simp only [List.map_append, List.mem_append, not_or]
      constructor
      · exact hAccFresh
      · simp only [List.map_cons, List.map_nil, List.mem_singleton]
        decide
    unfold outboundHeaders fetchGet
    rw [hbuild, objGet_toFetchHeaders, matchValues_append, matchValues_append, hmB,
      matchValues_single, matchValues_single]
    by_cases hdk : dropKey (lc n) = true
    · have hdrop : objGet (H.filterMap keepHeader) (lc n) = none :=
        objGet_keep_dropped H (lc n) hlc hdk
      have hna : ¬ (lc n = lc "Authorization") := by
        intro hh
        rw [hh] at hdk
        exact absurd hdk (by decide)
      have hnac : ¬ (lc n = lc "Accept") := by
        intro hh
        rw [hh] at hdk
        exact absurd hdk (by decide)
      rw [hdrop, if_neg hna, if_neg hnac]
      unfold claimedLookup
      rw [if_pos hdk]
      rfl
    · have hdkf : dropKey (lc n) = false := by simpa using hdk
      rw [hinb (lc n) hdkf]
      by_cases hau : lc n = "authorization"
      · have hau2 : lc n = lc "Authorization" := by rw [hau]; decide
        have hnac : ¬ (lc n = lc "Accept") := by
          intro hh
          rw [hau] at hh
          exact absurd hh (by decide)
        rw [if_pos hau2, if_neg hnac]
        unfold claimedLookup
        rw [if_neg hdk, if_pos hau]
        cases hi : inboundLookup H (lc n) with
        | some w => rfl
        | none => rfl
      · have hnau : ¬ (lc n = lc "Authorization") := by
          intro hh
          exact hau (by rw [hh]; decide)
        rw [if_neg hnau]
        by_cases hac : lc n = "accept"
        · have hac2 : lc n = lc "Accept" := by rw [hac]; decide
          rw [if_pos hac2]
          unfold claimedLookup
          rw [if_neg hdk, if_neg hau, if_pos hac, hac, ← hinb "accept" (by decide), hacc]
          rfl
        · have hnac : ¬ (lc n = lc "Accept") := by
            intro hh
            exact hac (by rw [hh]; decide)
          rw [if_neg hnac]
          unfold claimedLookup
          rw [if_neg hdk, if_neg hau, if_neg hac]
          cases hi : inboundLookup H (lc n) with
          | some w => rfl
          | none => rfl

theorem p1OutboundHeaders_spec (H : List (String × HVal)) (apiKey n : String)
    (hlc : ∀ p ∈ H, lc p.1 = p.1)
    (hnd : (H.map Prod.fst).Nodup)
    (hne : ∀ p ∈ H, hvalFalsy p.2 = false → hvalJoin p.2 ≠ "") :
    fetchGet (p1OutboundHeaders H apiKey) n = p1ClaimedLookup H apiKey n := by
  have hbase : H.foldl p1CopyStep [] = H.filterMap keepHeader := by
    simpa using p1CopyFold H [] hlc (by simp) hnd
  have hblc := keep_keys_lc H hlc
  have hlcA : lc "Authorization" = "authorization" := by decide
  have hlcAc : lc "Accept" = "accept" := by decide
  have hW : ∀ m, objGet (headersSet (H.filterMap keepHeader) "Authorization"
      ("Bearer " ++ apiKey)) m =
      if m = "authorization" then some ("Bearer " ++ apiKey)
      else objGet (H.filterMap keepHeader) m := by
    intro m
    rw [objGet_headersSet, hlcA]
  have hinb : ∀ c, dropKey c = false →
      objGet (H.filterMap keepHeader) c = inboundLookup H c := by
    intro c hc
    apply objGet_keep
    intro p hp hpc
    rw [hlc p hp, hpc]
    exact hc
  have hWacc : fetchGet (headersSet (H.filterMap keepHeader) "Authorization"
      ("Bearer " ++ apiKey)) "Accept" = objGet (H.filterMap keepHeader) "accept" := by
    unfold fetchGet
    rw [hlcAc, hW]
    simp only [if_neg (show ¬ (("accept" : String) = "authorization") by decide)]
  cases hacc : objGet (H.filterMap keepHeader) "accept" with
  | some v =>
    have hvne : v ≠ "" := objGet_keep_ne_empty H "accept" v hne hacc
    have hfin : p1OutboundHeaders H apiKey =
        headersSet (H.filterMap keepHeader) "Authorization" ("Bearer " ++ apiKey) := by
      unfold p1OutboundHeaders
      rw [hbase]
      simp only [hWacc, hacc]
      rw [if_neg (by simpa using hvne)]
    rw [hfin]
    unfold fetchGet
    rw [hW]
    by_cases hau : lc n = "authorization"
    · have hdk : dropKey (lc n) = false := by rw [hau]; decide
      unfold p1ClaimedLookup
      rw [if_pos hau, if_neg (by simp [hdk]), if_pos hau]
    · rw [if_neg hau]
      by_cases hdk : dropKey (lc n) = true
      · have hdrop : objGet (H.filterMap keepHeader) (lc n) = none :=
          objGet_keep_dropped H (lc n) hlc hdk
        unfold p1ClaimedLookup
        rw [hdrop, if_pos hdk]
      · have hdkf : dropKey (lc n) = false := by simpa using hdk
        rw [hinb (lc n) hdkf]
        by_cases hac : lc n = "accept"
        · unfold p1ClaimedLookup
          rw [if_neg hdk, if_neg hau, if_pos hac, hac, ← hinb "accept" (by decide), hacc]
          rfl
        · unfold p1ClaimedLookup
          rw [if_neg hdk, if_neg hau, if_neg hac]
  | none =>
    have hfin : p1OutboundHeaders H apiKey =
        headersSet (headersSet (H.filterMap keepHeader) "Authorization"
          ("Bearer " ++ apiKey)) "Accept" "text/event-stream" := by
      unfold p1OutboundHeaders
      rw [hbase]
      simp only [hWacc, hacc]
      rw [if_pos trivial]
    rw [hfin]
    unfold fetchGet
    rw [objGet_headersSet, hlcAc]
    by_cases hac : lc n = "accept"
    · have hdk : dropKey (lc n) = false := by rw [hac]; decide
      rw [if_pos hac]
      unfold p1ClaimedLookup
      rw [if_neg (by simp [hdk]), if_neg (by rw [hac]; decide), if_pos hac, hac,
        ← hinb "accept" (by decide), hacc]
      rfl
    · rw [if_neg hac, hW]
      by_cases hau : lc n = "authorization"
      · have hdk : dropKey (lc n) = false := by rw [hau]; decide
        unfold p1ClaimedLookup
        rw [if_pos hau, if_neg (by simp [hdk]), if_pos hau]
      · rw [if_neg hau]
        by_cases hdk : dropKey (lc n) = true
        · have hdrop : objGet (H.filterMap keepHeader) (lc n) = none :=
            objGet_keep_dropped H (lc n) hlc hdk
          unfold p1ClaimedLookup
          rw [hdrop, if_pos hdk]
        · have hdkf : dropKey (lc n) = false := by simpa using hdk
          rw [hinb (lc n) hdkf]
          unfold p1ClaimedLookup
          rw [if_neg hdk, if_neg hau, if_neg hac]

theorem lookupSkip_absent (skip : String × String → Bool)
    (t : List (String × String)) (m : String)
    (h : ∀ q ∈ t, ¬ (lc q.1 = lc m)) : lookupSkip skip t m = none := by
  induction t with
  | nil => rfl
  | cons p t ih =>
    have hp : ¬ (lc p.1 = lc m) := h p (List.mem_cons_self p t)
    have hcond : (!skip p && lc p.1 = lc m) = false := by
      simp [hp]
    simp only [lookupSkip, hcond, Bool.false_eq_true, if_false]
    exact ih (fun q hq => h q (List.mem_cons_of_mem p hq))

theorem resGet_setFold (skip : String × String → Bool)
    (L acc : List (String × String)) (m : String)
    (hnd : (L.map (fun p => lc p.1)).Nodup) :
    resGet (L.foldl (setStep skip) acc) m =
      match lookupSkip skip L m with
      | some v => some v
      | none => resGet acc m := by
  induction L generalizing acc with
  | nil => rfl
  | cons p t ih =>
    simp only [List.map_cons, List.nodup_cons] at hnd
    by_cases hs : skip p = true
    · have hcond : (!skip p && lc p.1 = lc m) = false := by simp [hs]
      simp only [List.foldl_cons, setStep, if_pos hs, lookupSkip, hcond,
        Bool.false_eq_true, if_false]
      exact ih acc hnd.2
    · have hsf : skip p = false := by simpa using hs
      by_cases hm : lc p.1 = lc m
      · have hcond : (!skip p && lc p.1 = lc m) = true := by simp [hsf, hm]
        have habs : lookupSkip skip t m = none := by
          apply lookupSkip_absent
          intro q hq hqm
          exact hnd.1 (by
            rw [← hm] at hqm
            exact hqm ▸ List.mem_map.mpr ⟨q, hq, rfl⟩)
        simp only [List.foldl_cons, setStep, hsf, Bool.false_eq_true, if_false,
          lookupSkip, hcond, if_pos trivial]
        rw [ih (resSetHeader acc p.1 p.2) hnd.2, habs, resGet_resSetHeader,
          if_pos hm.symm]
        simp [hm]
      · have hcond : (!skip p && lc p.1 = lc m) = false := by simp [hm]
        simp only [List.foldl_cons, setStep, hsf, Bool.false_eq_true, if_false,
          lookupSkip, hcond]
        rw [ih (resSetHeader acc p.1 p.2) hnd.2, resGet_resSetHeader,
          if_neg (fun hh => hm hh.symm)]
        simp [hm]

theorem lookupSkip_not_skipped (skip : String × String → Bool)
    (up : List (String × String)) (n : String)
    (hlc : ∀ p ∈ up, lc p.1 = p.1)
    (hns : ∀ p ∈ up, p.1 = lc n → skip p = false) :
    lookupSkip skip up n = objGet up (lc n) := by
  induction up with
  | nil => rfl
  | cons p t ih =>
    have hplc : lc p.1 = p.1 := hlc p (List.mem_cons_self p t)
    by_cases hm : p.1 = lc n
    · have hsf : skip p = false := hns p (List.mem_cons_self p t) hm
      have hcond : (!skip p && lc p.1 = lc n) = true := by
        simp [hsf, hplc.trans hm]
      simp only [lookupSkip, hcond, if_pos trivial, objGet, if_pos hm]
    · have hcond : (!skip p && lc p.1 = lc n) = false := by
        simp [hplc, hm]
      simp only [lookupSkip, hcond, Bool.false_eq_true, if_false, objGet, if_neg hm]
      exact ih (fun q hq => hlc q (List.mem_cons_of_mem p hq))
        (fun q hq => hns q (List.mem_cons_of_mem p hq))

theorem lookupSkip_all_skipped (skip : String × String → Bool)
    (up : List (String × String)) (n : String)
    (hlc : ∀ p ∈ up, lc p.1 = p.1)
    (hsk : ∀ p ∈ up, p.1 = lc n → skip p = true) :
    lookupSkip skip up n = none := by
  induction up with
  | nil => rfl
  | cons p t ih =>
    have hplc : lc p.1 = p.1 := hlc p (List.mem_cons_self p t)
    by_cases hm : p.1 = lc n
    · have hst : skip p = true := hsk p (List.mem_cons_self p t) hm
      have hcond : (!skip p && lc p.1 = lc n) = false := by simp [hst]
      simp only [lookupSkip, hcond, Bool.false_eq_true, if_false]
      exact ih (fun q hq => hlc q (List.mem_cons_of_mem p hq))
        (fun q hq => hsk q (List.mem_cons_of_mem p hq))
    · have hcond : (!skip p && lc p.1 = lc n) = false := by simp [hplc, hm]
      simp only [lookupSkip, hcond, Bool.false_eq_true, if_false]
      exact ih (fun q hq => hlc q (List.mem_cons_of_mem p hq))
        (fun q hq => hsk q (List.mem_cons_of_mem p hq))

theorem resGet_preset (m : String) :
    resGet presetHeaders m =
      if lc m = "cache-control" then some "no-cache"
      else if lc m = "connection" then some "keep-alive"
      else none := by
  have h1 : presetHeaders = [("Cache-Control", "no-cache"), ("Connection", "keep-alive")] := by
    decide
  rw [h1]
  by_cases h2 : lc m = "cache-control"
  · have hcc : lc "Cache-Control" = lc m := by rw [h2]; decide
    simp only [resGet, if_pos hcc, if_pos h2]
  · have hcc : ¬ (lc "Cache-Control" = lc m) := by
      intro hh
      exact h2 (by rw [← hh]; decide)
    by_cases h3 : lc m = "connection"
    · have hco : lc "Connection" = lc m := by rw [h3]; decide
      simp only [resGet, if_neg hcc, if_pos hco, if_neg h2, if_pos h3]
    · have hco : ¬ (lc "Connection" = lc m) := by
        intro hh
        exact h3 (by rw [← hh]; decide)
      simp only [resGet, if_neg hcc, if_neg hco, if_neg h2, if_neg h3]

theorem p0RespHeaders_spec (up : List (String × String)) (n : String)
    (hlc : ∀ p ∈ up, lc p.1 = p.1) (hnd : (up.map Prod.fst).Nodup) :
    resGet (p0RespHeaders up) n = claimedRespLookup up n := by
  have hnd2 : (up.map (fun p => lc p.1)).Nodup := by
    rw [List.map_congr_left hlc]
    exact hnd
  unfold p0RespHeaders
  rw [resGet_setFold p0Skip up presetHeaders n hnd2]
  by_cases hte : lc n = "transfer-encoding"
  · have habs : lookupSkip p0Skip up n = none := by
      apply lookupSkip_all_skipped p0Skip up n hlc
      intro p hp hpn
      have h1 : lc p.1 = "transfer-encoding" := by rw [hlc p hp, hpn, hte]
      simp [p0Skip, h1]
    rw [habs, resGet_preset]
    simp [claimedRespLookup, hte]
  · by_cases hce : lc n = "content-encoding"
    · have habs : lookupSkip p0Skip up n = none := by
        apply lookupSkip_all_skipped p0Skip up n hlc
        intro p hp hpn
        have h1 : lc p.1 = "content-encoding" := by rw [hlc p hp, hpn, hce]
        simp [p0Skip, h1]
      rw [habs, resGet_preset]
      simp [claimedRespLookup, hce]
    · have hkeep : lookupSkip p0Skip up n = objGet up (lc n) := by
        apply lookupSkip_not_skipped p0Skip up n hlc
        intro p hp hpn
        have h1 : lc p.1 = lc n := by rw [hlc p hp, hpn]
        simp [p0Skip, h1, hte, hce]
      rw [hkeep]
      cases hv : objGet up (lc n) with
      | some v => simp [claimedRespLookup, hte, hce, hv]
      | none =>
        rw [resGet_preset]
        simp [claimedRespLookup, hte, hce, hv]

theorem idxRespHeaders_spec (up : List (String × String)) (n : String)
    (hlc : ∀ p ∈ up, lc p.1 = p.1) (hnd : (up.map Prod.fst).Nodup) :
    resGet (idxRespHeaders up) n = idxClaimedRespLookup up n := by
  have hnd2 : (up.map (fun p => lc p.1)).Nodup := by
    rw [List.map_congr_left hlc]
    exact hnd
  unfold idxRespHeaders
  rw [resGet_resSetHeader]
  by_cases hte : lc n = "transfer-encoding"
  · have hte1 : lc n = lc "Transfer-Encoding" := by rw [hte]; decide
    rw [if_pos hte1]
    simp [idxClaimedRespLookup, hte]
  · have hte1 : ¬ (lc n = lc "Transfer-Encoding") := by
      intro hh
      exact hte (by rw [hh]; decide)
    rw [if_neg hte1, resGet_setFold idxSkip up presetHeaders n hnd2]
    by_cases hce : lc n = "content-encoding"
    · have habs : lookupSkip idxSkip up n = none := by
        apply lookupSkip_all_skipped idxSkip up n hlc
        intro p hp hpn
        have h1 : lc p.1 = "content-encoding" := by rw [hlc p hp, hpn, hce]
        simp [idxSkip, p0Skip, h1]
      rw [habs, resGet_preset]
      simp [idxClaimedRespLookup, hce]
    · by_cases hcl : lc n = "content-length"
      · have habs : lookupSkip idxSkip up n = none := by
          apply lookupSkip_all_skipped idxSkip up n hlc
          intro p hp hpn
          have h1 : lc p.1 = "content-length" := by rw [hlc p hp, hpn, hcl]
          simp [idxSkip, p0Skip, h1]
        rw [habs, resGet_preset]
        simp [idxClaimedRespLookup, hcl]
      · have hkeep : lookupSkip idxSkip up n = objGet up (lc n) := by
          apply lookupSkip_not_skipped idxSkip up n hlc
          intro p hp hpn
          have h1 : lc p.1 = lc n := by rw [hlc p hp, hpn]
          simp [idxSkip, p0Skip, h1, hte, hce, hcl]
        rw [hkeep]
        cases hv : objGet up (lc n) with
        | some v => simp [idxClaimedRespLookup, hte, hce, hcl, hv]
        | none =>
          rw [resGet_preset]
          simp [idxClaimedRespLookup, hte, hce, hcl, hv]

theorem p1RespHeaders_spec (up : List (String × String)) (n : String)
    (hlc : ∀ p ∈ up, lc p.1 = p.1) (hnd : (up.map Prod.fst).Nodup) :
    resGet (p1RespHeaders up) n =
      if lc n = "transfer-encoding" then none else objGet up (lc n) := by
  have hnd2 : (up.map (fun p => lc p.1)).Nodup := by
    rw [List.map_congr_left hlc]
    exact hnd
  unfold p1RespHeaders
  rw [resGet_setFold p1RespSkip up [] n hnd2]
  by_cases hte : lc n = "transfer-encoding"
  · have habs : lookupSkip p1RespSkip up n = none := by
      apply lookupSkip_all_skipped p1RespSkip up n hlc
      intro p hp hpn
      have h1 : lc p.1 = "transfer-encoding" := by rw [hlc p hp, hpn, hte]
      simp [p1RespSkip, h1]
    rw [habs, if_pos hte]
    rfl
  · have hkeep : lookupSkip p1RespSkip up n = objGet up (lc n) := by
      apply lookupSkip_not_skipped p1RespSkip up n hlc
      intro p hp hpn
      have h1 : lc p.1 = lc n := by rw [hlc p hp, hpn]
      simp [p1RespSkip, h1, hte]
    rw [hkeep, if_neg hte]
    cases hv : objGet up (lc n) with
    | some v => rfl
    | none => rfl

/-! ## Helper lemmas about the gate and the handler shape -/

theorem checkSecret_iff (cfg : Option String) (tok : String) :
    checkSecret cfg tok = true ↔ (cfg = none ∨ cfg = some "" ∨ cfg = some tok) := by
  cases cfg with
  | none => simp [checkSecret]
  | some s =>
    by_cases hs : s = ""
    · subst hs
      simp [checkSecret]
    · simp [checkSecret, hs, eq_comm]

theorem resp_not_both (r : Resp) :
    ¬ (isForwarded r = true ∧ isErrorTermination r = true) := by
  cases r <;> simp [isForwarded, isErrorTermination]

theorem p0_shape (env : Env) (decomp : ByteSeq → Except String ByteSeq)
    (pad : ByteSeq × ByteSeq) (req : Request) (net : FetchResult)
    (hg : checkSecret (effectiveSecret env) req.secretParam = true)
    (hk : optFalsy env.RENDER_API_KEY = false) :
    (p0Handler env decomp pad req net).outbound = 1 ∧
    (isForwarded (p0Handler env decomp pad req net).response = true ∨
     isErrorTermination (p0Handler env decomp pad req net).response = true) := by
  unfold p0Handler
  simp only [hg, Bool.not_true, Bool.false_eq_true, if_false, hk, if_true]
  split
  · simp [isErrorTermination]
  · split
    · simp [isForwarded]
    · split
      · simp [isForwarded]
      · split
        · split
          · simp [isForwarded]
          · simp [isErrorTermination]
        · simp [isForwarded]

/-! ## Claims -/

/-- C10: if the configured secret environment variable is set to the
empty string (so that the derived `MCP_PATH_SECRET` value is the empty
string), the secret gate treats it as unset and authorizes every request
regardless of the supplied path token.  The first conjunct covers the
part_000/index.js derivation (`MCP_PATH_SECRET || MCP_SHARED_SECRET`)
whenever the fallback variable is also unset or empty; the second covers
the part_001 gate, which reads the single variable directly. -/
theorem c10_empty_secret_open (fallback : Option String) (token : String)
    (hf : fallback = none ∨ fallback = some "") :
    checkSecret (effectiveSecretOf (some "") fallback) token = true ∧
    checkSecret (some "") token = true := by
  rcases hf with h | h <;> subst h <;>
    exact ⟨by simp [effectiveSecretOf, jsOr, checkSecret], by simp [checkSecret]⟩

/-- Witness for C10 at a concrete input. -/
theorem c10_witness :
    checkSecret (effectiveSecretOf (some "") none) "wrong-token" = true ∧
    checkSecret (some "") "wrong-token" = true :=
  c10_empty_secret_open none "wrong-token" (Or.inl rfl)

/-- C8: with `RENDER_API_KEY` unset, every gate-passing call to
`/mcp/:secret` answers 500 with the JSON body whose `error` field is
`Missing RENDER_API_KEY env var`, and no outbound call is issued
(`outbound = 0`) — in both the part_000 and the index.js handler. -/
theorem c8_missing_key (env : Env) (decomp : ByteSeq → Except String ByteSeq)
    (pad : ByteSeq × ByteSeq) (req : Request) (net : FetchResult)
    (hkey : env.RENDER_API_KEY = none)
    (hgate : checkSecret (effectiveSecret env) req.secretParam = true) :
    p0Handler env decomp pad req net =
      { outbound := 0, response := .jsonError 500 "Missing RENDER_API_KEY env var" } ∧
    idxHandler env req net =
      { outbound := 0, response := .jsonError 500 "Missing RENDER_API_KEY env var" } := by
  constructor
  · unfold p0Handler
    simp [hgate, hkey, optFalsy]
  · unfold idxHandler
    simp [hgate, hkey, optFalsy]

/-- Witness for C8 at a concrete input. -/
theorem c8_witness :
    p0Handler keylessEnv sampleDecomp noPad sampleReq (.responds 1 jsonUpstream) =
      { outbound := 0, response := .jsonError 500 "Missing RENDER_API_KEY env var" } ∧
    idxHandler keylessEnv sampleReq (.responds 1 jsonUpstream) =
      { outbound := 0, response := .jsonError 500 "Missing RENDER_API_KEY env var" } :=
  c8_missing_key keylessEnv sampleDecomp noPad sampleReq (.responds 1 jsonUpstream)
    rfl (by decide)

/-- C9 counterexample: the health endpoint of the src/unnamed/part_001
variant, called with the correct secret, answers 200 with body fields
`ok` and `mcp` — not the claimed body with fields `ok` and `proxy`. -/
theorem c9_counterexample :
    p1Health (some "s") "s" = (200, [("ok", .bool true), ("mcp", .bool true)]) ∧
    p1Health (some "s") "s" ≠ (200, [("ok", .bool true), ("proxy", .bool true)]) := by
  decide

/-- C9 amended: a gate-passing GET to the health endpoint answers 200
with body `ok`/`proxy` (both true) in part_000 and `ok`/`mcp` in the
part_001 variant; a failing one answers 401 with the `Unauthorized`
error body.  The handlers are pure functions of the configuration and
the token (no state is read or written), so repeated requests with the
same inputs return the same results. -/
theorem c9_amended_health (env : Env) (secret : Option String) (token : String) :
    (p0Health env token = (200, [("ok", .bool true), ("proxy", .bool true)]) ∨
      p0Health env token = (401, unauthorizedBody)) ∧
    (p0Health env token = (200, [("ok", .bool true), ("proxy", .bool true)]) ↔
      checkSecret (effectiveSecret env) token = true) ∧
    (p0Health env token = (401, unauthorizedBody) ↔
      checkSecret (effectiveSecret env) token = false) ∧
    (p1Health secret token = (200, [("ok", .bool true), ("mcp", .bool true)]) ↔
      checkSecret secret token = true) := by
  by_cases h : checkSecret (effectiveSecret env) token = true <;>
    by_cases h1 : checkSecret secret token = true <;>
      simp [p0Health, p1Health, h, h1, unauthorizedBody]

/-- C4 counterexample: with the derived secret equal to the empty string
(environment `MCP_SHARED_SECRET` set to `""`) and the path token `"x"`,
the claim as stated demands a 401 with no outbound call (the configured
secret is set and differs from the token); the code instead authorizes
the request and dispatches one outbound call that is fully relayed. -/
theorem c4_counterexample :
    effectiveSecret emptySecretEnv = some "" ∧
    ("x" : String) ≠ "" ∧
    (p0Handler emptySecretEnv sampleDecomp noPad
      { method := "POST", secretParam := "x",
        headers := [("accept", .str "text/event-stream")], body := some [7] }
      (.responds 1 jsonUpstream)).outbound = 1 ∧
    isErrorTermination (p0Handler emptySecretEnv sampleDecomp noPad
      { method := "POST", secretParam := "x",
        headers := [("accept", .str "text/event-stream")], body := some [7] }
      (.responds 1 jsonUpstream)).response = false := by
  decide

/-- C4 amended: the part_000 handler answers 401 with the JSON
`Unauthorized` error body and zero outbound calls exactly when the
derived secret is set to a nonempty string different from the path
token; it authorizes the request (and never produces that response) when
the secret is unset, empty, or equal to the token by exact string
comparison. -/
theorem c4_amended_gate (env : Env) (decomp : ByteSeq → Except String ByteSeq)
    (pad : ByteSeq × ByteSeq) (req : Request) (net : FetchResult) :
    (p0Handler env decomp pad req net =
      { outbound := 0, response := .jsonError 401 "Unauthorized" }) ↔
    ¬ (effectiveSecret env = none ∨ effectiveSecret env = some "" ∨
       effectiveSecret env = some req.secretParam) := by
  rw [← checkSecret_iff]
  by_cases h : checkSecret (effectiveSecret env) req.secretParam = true
  · simp only [h, not_true_eq_false, iff_false]
    intro heq
    by_cases hk : optFalsy env.RENDER_API_KEY = true
    · have : p0Handler env decomp pad req net =
          { outbound := 0, response := .jsonError 500 "Missing RENDER_API_KEY env var" } := by
        unfold p0Handler
        simp [h, hk]
      rw [heq] at this
      exact absurd this (by decide)
    · have h1 := (p0_shape env decomp pad req net h (by simpa using hk)).1
      rw [heq] at h1
      exact absurd h1 (by decide)
  · have hf : ¬ (checkSecret (effectiveSecret env) req.secretParam = true) := h
    have hcf : checkSecret (effectiveSecret env) req.secretParam = false := by
      revert h
      cases checkSecret (effectiveSecret env) req.secretParam <;> simp
    have heq : p0Handler env decomp pad req net =
        { outbound := 0, response := .jsonError 401 "Unauthorized" } := by
      unfold p0Handler
      simp [hcf]
    simp [heq, hf]

/-- C6 counterexample: an upstream that never responds makes the part_000
handler answer with HTTP 500 (the outer catch of lines 262-265 turns the
abort error into a 500), not the claimed 502. -/
theorem c6_counterexample :
    p0Handler openEnv sampleDecomp noPad sampleReq .hangs =
      { outbound := 1, response := .jsonError 500 "This operation was aborted" } ∧
    respStatus (p0Handler openEnv sampleDecomp noPad sampleReq .hangs).response = 500 ∧
    (500 : Nat) ≠ 502 := by
  decide

/-- C6 amended: every outbound call of the part_000 handler is bounded by
the `UPSTREAM_TIMEOUT_MS` deadline (default 120000 ms); when the upstream
hangs or would respond only at or after the deadline, the in-flight call
is aborted and the caller receives HTTP 500 with a JSON error body — not
502, and not an indefinite hang. -/
theorem c6_amended_timeout :
    (∀ env : Env, env.UPSTREAM_TIMEOUT_MS = none → p0TimeoutMs env = 120000) ∧
    (∀ (env : Env) (ms : Nat), env.UPSTREAM_TIMEOUT_MS = some ms → p0TimeoutMs env = ms) ∧
    (∀ (env : Env) (decomp : ByteSeq → Except String ByteSeq)
       (pad : ByteSeq × ByteSeq) (req : Request) (net : FetchResult),
      checkSecret (effectiveSecret env) req.secretParam = true →
      optFalsy env.RENDER_API_KEY = false →
      (net = .hangs ∨ ∃ d resp, net = .responds d resp ∧ p0TimeoutMs env ≤ d) →
      p0Handler env decomp pad req net =
        { outbound := 1, response := .jsonError 500 (jsErrMessage .abortError) }) := by
  refine ⟨?_, ?_, ?_⟩
  · intro env h
    simp [p0TimeoutMs, h]
  · intro env ms h
    simp [p0TimeoutMs, h]
  · intro env decomp pad req net hg hk hnet
    have hfetch : fetchWithTimeout (p0TimeoutMs env) net = .error .abortError := by
      rcases hnet with h | ⟨d, resp, hn, hd⟩
      · subst h
        rfl
      · subst hn
        simp only [fetchWithTimeout]
        rw [if_neg (by omega)]
    unfold p0Handler
    simp [hg, hk, hfetch]

/-- Witness for C6 at a concrete input: default deadline, upstream that
would respond exactly at the deadline. -/
theorem c6_witness :
    p0Handler openEnv sampleDecomp noPad sampleReq (.responds 120000 jsonUpstream) =
      { outbound := 1, response := .jsonError 500 (jsErrMessage .abortError) } :=
  (c6_amended_timeout.2.2) openEnv sampleDecomp noPad sampleReq
    (.responds 120000 jsonUpstream) (by decide) (by decide)
    (Or.inr ⟨120000, jsonUpstream, rfl, by decide⟩)

/-- C2: evaluation of the part_000 buffered path at the failing input.
The brotli branch forwards `Buffer.from(decompressed.buffer)` — the whole
backing ArrayBuffer of the `Buffer.concat` result — so under a pooled
allocation (any decompressed payload under 4 KiB) the caller receives
the slab's surrounding bytes as well: here `[104, 105, 42]` instead of
the decompressed `[104, 105]`.  The last conjunct shows the same input
round-trips exactly when the allocation happens to have no slack, which
is why the defect is allocation-dependent. -/
theorem c2_buffer_bug :
    sampleDecomp [1, 2, 3] = .ok [104, 105] ∧
    p0Handler openEnv sampleDecomp poolPad sampleReq (.responds 1 brUpstream) =
      { outbound := 1,
        response := .relay 200 (p0RespHeaders brUpstream.headers)
          (.buffered [104, 105, 42]) } ∧
    ([104, 105, 42] : ByteSeq) ≠ [104, 105] ∧
    p0Handler openEnv sampleDecomp noPad sampleReq (.responds 1 brUpstream) =
      { outbound := 1,
        response := .relay 200 (p0RespHeaders brUpstream.headers)
          (.buffered [104, 105]) } := by
  refine ⟨rfl, by decide, by decide, by decide⟩

/-- C3 counterexample: in src/index.js, a gate-passing request whose
upstream response has a body issues exactly one outbound call, but the
handler then neither forwards the response nor terminates with an error
status: it flushes the headers and crashes on the unbound `nodeStream`
variable, and the catch block cannot send an error response because the
headers are already sent. -/
theorem c3_counterexample :
    (idxHandler openEnv sampleReq (.responds 1 jsonUpstream)).outbound = 1 ∧
    isForwarded (idxHandler openEnv sampleReq (.responds 1 jsonUpstream)).response = false ∧
    isErrorTermination
      (idxHandler openEnv sampleReq (.responds 1 jsonUpstream)).response = false := by
  decide

/-- C3 amended: in the part_000 handler, a gate-passing request with
`RENDER_API_KEY` missing or empty issues no outbound call and terminates
with the 500 error body; otherwise exactly one outbound call is issued
and the handler either forwards the upstream response or terminates the
request with a JSON error status — and never both. -/
theorem c3_amended_invariant (env : Env) (decomp : ByteSeq → Except String ByteSeq)
    (pad : ByteSeq × ByteSeq) (req : Request) (net : FetchResult)
    (hg : checkSecret (effectiveSecret env) req.secretParam = true) :
    (optFalsy env.RENDER_API_KEY = true →
      p0Handler env decomp pad req net =
        { outbound := 0, response := .jsonError 500 "Missing RENDER_API_KEY env var" }) ∧
    (optFalsy env.RENDER_API_KEY = false →
      (p0Handler env decomp pad req net).outbound = 1 ∧
      (isForwarded (p0Handler env decomp pad req net).response = true ∨
        isErrorTermination (p0Handler env decomp pad req net).response = true) ∧
      ¬ (isForwarded (p0Handler env decomp pad req net).response = true ∧
         isErrorTermination (p0Handler env decomp pad req net).response = true)) := by
  constructor
  · intro hk
    unfold p0Handler
    simp [hg, hk]
  · intro hk
    refine ⟨(p0_shape env decomp pad req net hg hk).1,
      (p0_shape env decomp pad req net hg hk).2, ?_⟩
    exact resp_not_both (p0Handler env decomp pad req net).response

/-- Witness for C3 at a concrete input (an SSE response relayed to
completion). -/
theorem c3_witness :
    (p0Handler openEnv sampleDecomp noPad sampleReq (.responds 1 sseUpstream)).outbound = 1 ∧
    (isForwarded (p0Handler openEnv sampleDecomp noPad sampleReq
        (.responds 1 sseUpstream)).response = true ∨
      isErrorTermination (p0Handler openEnv sampleDecomp noPad sampleReq
        (.responds 1 sseUpstream)).response = true) ∧
    ¬ (isForwarded (p0Handler openEnv sampleDecomp noPad sampleReq
        (.responds 1 sseUpstream)).response = true ∧
       isErrorTermination (p0Handler openEnv sampleDecomp noPad sampleReq
        (.responds 1 sseUpstream)).response = true) :=
  (c3_amended_invariant openEnv sampleDecomp noPad sampleReq (.responds 1 sseUpstream)
    (by decide)).2 (by decide)

/-- C1 counterexample: in src/index.js, an upstream response with a
declared `content-length` and a non-event-stream content type — for
which the claim requires the Buffering path and a single full-body
write — produces no buffered write at all: the handler takes its
always-streaming branch, flushes the headers and crashes on the unbound
`nodeStream`, leaving the caller with status and headers and no body. -/
theorem c1_counterexample :
    (idxHandler openEnv sampleReq (.responds 1 plainUpstream)).response =
      .hung 200 (idxRespHeaders plainUpstream.headers) ∧
    isBufferedWrite (idxHandler openEnv sampleReq (.responds 1 plainUpstream)).response =
      false := by
  decide

/-- C1 amended, for the part_000 relay (taking a body-bearing upstream
response delivered before the deadline): the Streaming path is chosen if
and only if the content type contains `text/event-stream` and no
nonempty `content-length` is declared; in every other case the full
body is delivered in one single buffered write — equal to the upstream
bytes when no brotli `content-encoding` is declared, and equal to the
decoder output as framed by the `Buffer.concat` allocation when it is.
(The src/index.js variant performs no such classification: see the
counterexample.) -/
theorem c1_amended_classification (env : Env) (decomp : ByteSeq → Except String ByteSeq)
    (pad : ByteSeq × ByteSeq) (req : Request) (d : Nat) (resp : UpstreamResponse)
    (chunks : List ByteSeq)
    (hg : checkSecret (effectiveSecret env) req.secretParam = true)
    (hk : optFalsy env.RENDER_API_KEY = false)
    (hd : d < p0TimeoutMs env) (hb : resp.body = some chunks) :
    ((p0Handler env decomp pad req (.responds d resp)).response =
        .relay resp.status (p0RespHeaders resp.headers) (.streamed chunks) ↔
      sseStreamCond resp) ∧
    (¬ sseStreamCond resp →
      hasSub ((fetchGet resp.headers "content-encoding").getD "") "br" = false →
      (p0Handler env decomp pad req (.responds d resp)).response =
        .relay resp.status (p0RespHeaders resp.headers)
          (.buffered (flattenChunks chunks))) ∧
    (∀ dbytes : ByteSeq, ¬ sseStreamCond resp →
      hasSub ((fetchGet resp.headers "content-encoding").getD "") "br" = true →
      decomp (flattenChunks chunks) = .ok dbytes →
      (p0Handler env decomp pad req (.responds d resp)).response =
        .relay resp.status (p0RespHeaders resp.headers)
          (.buffered (pad.1 ++ dbytes ++ pad.2))) := by
  have hfetch : fetchWithTimeout (p0TimeoutMs env) (.responds d resp) = .ok resp := by
    simp only [fetchWithTimeout]
    rw [if_pos hd]
  by_cases hs : sseStreamCond resp
  · obtain ⟨hs1, hs2⟩ := hs
    have hcond : (hasSub ((fetchGet resp.headers "content-type").getD "")
        "text/event-stream" &&
        ((fetchGet resp.headers "content-length").getD "" = "")) = true := by
      simp [hs1, hs2]
    have hresp : p0Handler env decomp pad req (.responds d resp) =
        { outbound := 1,
          response := .relay resp.status (p0RespHeaders resp.headers)
            (.streamed chunks) } := by
      unfold p0Handler
      simp [hg, hk, hfetch, hb, hcond]
    refine ⟨⟨fun _ => ⟨hs1, hs2⟩, fun _ => by rw [hresp]⟩, ?_, ?_⟩
    · intro hns
      exact absurd ⟨hs1, hs2⟩ hns
    · intro dbytes hns
      exact absurd ⟨hs1, hs2⟩ hns
  · have hcond : (hasSub ((fetchGet resp.headers "content-type").getD "")
        "text/event-stream" &&
        ((fetchGet resp.headers "content-length").getD "" = "")) = false := by
      by_cases hA : hasSub ((fetchGet resp.headers "content-type").getD "")
          "text/event-stream" = true
      · by_cases hB : (fetchGet resp.headers "content-length").getD "" = ""
        · exact absurd ⟨hA, hB⟩ hs
        · simp [hA, hB]
      · have hAf : hasSub ((fetchGet resp.headers "content-type").getD "")
            "text/event-stream" = false := by
          revert hA
          cases hasSub ((fetchGet resp.headers "content-type").getD "")
            "text/event-stream" <;> simp
        simp [hAf]
    by_cases hbr : hasSub ((fetchGet resp.headers "content-encoding").getD "") "br" = true
    · cases hdec : decomp (flattenChunks chunks) with
      | ok dbytes =>
        have hresp : p0Handler env decomp pad req (.responds d resp) =
            { outbound := 1,
              response := .relay resp.status (p0RespHeaders resp.headers)
                (.buffered (pad.1 ++ dbytes ++ pad.2)) } := by
          unfold p0Handler
          simp [hg, hk, hfetch, hb, hcond, hbr, hdec]
        refine ⟨⟨fun hh => ?_, fun hh => absurd hh hs⟩, ?_, ?_⟩
        · rw [hresp] at hh
          simp at hh
        · intro _ hbr2
          rw [hbr] at hbr2
          exact absurd hbr2 (by decide)
        · intro dbytes' _ _ hdec'
          have hsame : dbytes = dbytes' := by injection hdec'
          rw [hresp, ← hsame]
      | error m =>
        have hresp : p0Handler env decomp pad req (.responds d resp) =
            { outbound := 1,
              response := .jsonError 502 ("Failed to read upstream response: " ++ m) } := by
          unfold p0Handler
          simp [hg, hk, hfetch, hb, hcond, hbr, hdec]
        refine ⟨⟨fun hh => ?_, fun hh => absurd hh hs⟩, ?_, ?_⟩
        · rw [hresp] at hh
          simp at hh
        · intro _ hbr2
          rw [hbr] at hbr2
          exact absurd hbr2 (by decide)
        · intro dbytes' _ _ hdec'
          exact absurd hdec' (by simp)
    · have hbrf : hasSub ((fetchGet resp.headers "content-encoding").getD "") "br" =
          false := by
        revert hbr
        cases hasSub ((fetchGet resp.headers "content-encoding").getD "") "br" <;> simp
      have hresp : p0Handler env decomp pad req (.responds d resp) =
          { outbound := 1,
            response := .relay resp.status (p0RespHeaders resp.headers)
              (.buffered (flattenChunks chunks)) } := by
        unfold p0Handler
        simp [hg, hk, hfetch, hb, hcond, hbrf]
      refine ⟨⟨fun hh => ?_, fun hh => absurd hh hs⟩, ?_, ?_⟩
      · rw [hresp] at hh
        simp at hh
      · intro _ _
        rw [hresp]
      · intro dbytes' _ hbr2
        rw [hbrf] at hbr2
        exact absurd hbr2 (by decide)

/-- Witness for C1 at a concrete input: an SSE response without a
content-length is streamed chunk by chunk. -/
theorem c1_witness :
    (p0Handler openEnv sampleDecomp noPad sampleReq (.responds 1 sseUpstream)).response =
      .relay sseUpstream.status (p0RespHeaders sseUpstream.headers)
        (.streamed [[1, 2], [3]]) :=
  (c1_amended_classification openEnv sampleDecomp noPad sampleReq 1 sseUpstream
    [[1, 2], [3]] (by decide) (by decide) (by decide) rfl).1.mpr (by decide)

/-- C5 counterexample: with an inbound `authorization` header and an
inbound header carrying an empty value, the part_000 translation does
not behave as claimed.  The copied lowercase `authorization` property
and the assigned capital-A `Authorization` property both survive in the
plain object, and the fetch `Headers` conversion combines them — so the
upstream sees both credentials instead of an overwritten one — and the
empty-valued header is dropped rather than copied verbatim. -/
theorem c5_counterexample :
    fetchGet (outboundHeaders
      [("authorization", .str "Basic xyz"), ("x-empty", .str "")] "K") "authorization" =
      some "Basic xyz, Bearer K" ∧
    some "Basic xyz, Bearer K" ≠ some ("Bearer " ++ "K") ∧
    fetchGet (outboundHeaders
      [("authorization", .str "Basic xyz"), ("x-empty", .str "")] "K") "x-empty" =
      none := by
  decide

/-- C5 amended: name-by-name contract of the outbound header set, under
the Node invariants (inbound names lowercase and unique, joined values
of kept headers nonempty).  In part_000: `host`/`connection`/
`content-length` and empty-valued headers are dropped; other headers are
copied verbatim with arrays joined by a comma; the bearer credential is
*appended after* any copied inbound `authorization` value (the plain
object holds both spellings and the fetch `Headers` conversion combines
them), not overwritten; `Accept` defaults to `text/event-stream` when no
nonempty inbound accept exists.  The part_001 variant is identical
except that its `Headers.set` genuinely overwrites `Authorization`. -/
theorem c5_amended_translation (H : List (String × HVal)) (apiKey n : String)
    (hlc : ∀ p ∈ H, lc p.1 = p.1)
    (hnd : (H.map Prod.fst).Nodup)
    (hne : ∀ p ∈ H, hvalFalsy p.2 = false → hvalJoin p.2 ≠ "") :
    fetchGet (outboundHeaders H apiKey) n = claimedLookup H apiKey n ∧
    fetchGet (p1OutboundHeaders H apiKey) n = p1ClaimedLookup H apiKey n :=
  ⟨outboundHeaders_spec H apiKey n hlc hnd hne,
   p1OutboundHeaders_spec H apiKey n hlc hnd hne⟩

/-- Witness for C5 at a concrete input: a multi-valued header is joined
with a comma and looked up case-insensitively; the dropped `host` and
the defaulted `Accept` behave as characterized. -/
theorem c5_witness :
    fetchGet (outboundHeaders
      [("host", .str "example.com"), ("x-multi", .arr ["a", "b"])] "K") "X-Multi" =
      some "a,b" ∧
    fetchGet (outboundHeaders
      [("host", .str "example.com"), ("x-multi", .arr ["a", "b"])] "K") "host" = none ∧
    fetchGet (outboundHeaders
      [("host", .str "example.com"), ("x-multi", .arr ["a", "b"])] "K") "accept" =
      some "text/event-stream" := by
  have h1 := c5_amended_translation
    [("host", .str "example.com"), ("x-multi", .arr ["a", "b"])] "K" "X-Multi"
    (by decide) (by decide) (by decide)
  have h2 := c5_amended_translation
    [("host", .str "example.com"), ("x-multi", .arr ["a", "b"])] "K" "host"
    (by decide) (by decide) (by decide)
  have h3 := c5_amended_translation
    [("host", .str "example.com"), ("x-multi", .arr ["a", "b"])] "K" "accept"
    (by decide) (by decide) (by decide)
  refine ⟨h1.1.trans (by decide), h2.1.trans (by decide), h3.1.trans (by decide)⟩

/-- C7 counterexample: a buffered (non-streaming) upstream response with
a `gzip` content-encoding — a case in which the relay performs no
decompression, so the claim requires `content-encoding` to be kept and
no streaming headers to be added.  The part_000 relay nevertheless
delivers it with `content-encoding` dropped and `Cache-Control:
no-cache` added. -/
theorem c7_counterexample :
    (p0Handler openEnv sampleDecomp noPad sampleReq (.responds 1 gzipUpstream)).response =
      .relay 200 (p0RespHeaders gzipUpstream.headers) (.buffered [5, 6, 7, 8]) ∧
    resGet (p0RespHeaders gzipUpstream.headers) "content-encoding" = none ∧
    resGet (p0RespHeaders gzipUpstream.headers) "cache-control" = some "no-cache" := by
  decide

/-- C7 amended: response-header contract of the three variants, name by
name (upstream names lowercase and unique, as undici delivers them).
part_000: status mirrors the upstream on every forwarded response;
`transfer-encoding` and `content-encoding` are always dropped
(decompression or not); `content-length` is never dropped;
`Cache-Control: no-cache` and `Connection: keep-alive` are preset on
*every* response, streaming or buffered, with an upstream value winning
when sent.  src/index.js additionally drops `content-length` and forces
`Transfer-Encoding: chunked`.  The part_001 variant drops only
`transfer-encoding` and adds nothing. -/
theorem c7_amended_headers :
    (∀ (up : List (String × String)) (n : String),
      (∀ p ∈ up, lc p.1 = p.1) → (up.map Prod.fst).Nodup →
      resGet (p0RespHeaders up) n = claimedRespLookup up n) ∧
    (∀ (up : List (String × String)) (n : String),
      (∀ p ∈ up, lc p.1 = p.1) → (up.map Prod.fst).Nodup →
      resGet (idxRespHeaders up) n = idxClaimedRespLookup up n) ∧
    (∀ (up : List (String × String)) (n : String),
      (∀ p ∈ up, lc p.1 = p.1) → (up.map Prod.fst).Nodup →
      resGet (p1RespHeaders up) n =
        if lc n = "transfer-encoding" then none else objGet up (lc n)) ∧
    (∀ (env : Env) (decomp : ByteSeq → Except String ByteSeq)
       (pad : ByteSeq × ByteSeq) (req : Request) (net : FetchResult)
       (d : Nat) (resp : UpstreamResponse),
      checkSecret (effectiveSecret env) req.secretParam = true →
      optFalsy env.RENDER_API_KEY = false →
      net = .responds d resp → d < p0TimeoutMs env →
      isForwarded (p0Handler env decomp pad req net).response = true →
      respStatus (p0Handler env decomp pad req net).response = resp.status) := by
  refine ⟨fun up n h1 h2 => p0RespHeaders_spec up n h1 h2,
    fun up n h1 h2 => idxRespHeaders_spec up n h1 h2,
    fun up n h1 h2 => p1RespHeaders_spec up n h1 h2,
    ?_⟩
  intro env decomp pad req net d resp hg hk hnet hd hfwd
  subst hnet
  have hfetch : fetchWithTimeout (p0TimeoutMs env) (.responds d resp) = .ok resp := by
    simp only [fetchWithTimeout]
    rw [if_pos hd]
  revert hfwd
  unfold p0Handler
  simp only [hg, Bool.not_true, Bool.false_eq_true, if_false, hk, if_true, hfetch]
  split
  · intro _
    rfl
  · split
    · intro _
      rfl
    · split
      · split
        · intro _
          rfl
        · intro hfwd
          exact absurd hfwd (by simp [isForwarded])
      · intro _
        rfl

/-- Witness for C7 at a concrete input. -/
theorem c7_witness :
    resGet (p0RespHeaders [("content-type", "application/json"), ("content-length", "7")])
      "Content-Length" = some "7" ∧
    resGet (p0RespHeaders [("content-type", "application/json"), ("content-length", "7")])
      "Connection" = some "keep-alive" := by
  have h1 := c7_amended_headers.1
    [("content-type", "application/json"), ("content-length", "7")] "Content-Length"
    (by decide) (by decide)
  have h2 := c7_amended_headers.1
    [("content-type", "application/json"), ("content-length", "7")] "Connection"
    (by decide) (by decide)
  exact ⟨h1.trans (by decide), h2.trans (by decide)⟩
